import Mathlib

/-!
# MediaFootswitch: the input-to-intent decoding pipeline

A shallow embedding of `src/MediaFootswitch_IO.h` (classes `Debouncer`,
`InputHandler`, `PressCounter`, `CommandIndex`) and of the class
`MediaCommands` of `src/MediaFootswitch_HID.h`.

Modelling conventions
* `unsigned long` values are naturals read modulo `ULONG_MOD = 2^32`; the
  only arithmetic the source performs on them is the wrapping subtraction
  `usub`.
* `uint8_t` values are naturals; the one place where the source can overflow
  one (`count++`) reduces modulo `UINT8_MOD = 256`.
* `millis()` is an input: every method that reads the clock takes the
  reading `now` as an argument (one reading per method call).
* `digitalRead(Pin)` is an input: `InputHandler.update` takes the raw level.
* the `InputHandler &` references held by `PressCounter` and `CommandIndex`
  are passed as an explicit argument to the methods that read the pin.
* `HIGH` is `true`, `LOW` is `false`.
* the HID `Consumer` object is outside the repository: `MediaCommands.run`
  returns the `Consumer.press` / `Consumer.release` calls it makes, in order;
  key codes are naturals, and an out-of-bounds read of the command table
  makes `run` return `none`.
-/

namespace MediaFootswitch

/-- Number of values of an `unsigned long` (32 bits). -/
def ULONG_MOD : Nat := 4294967296

/-- Number of values of a `uint8_t`. -/
def UINT8_MOD : Nat := 256

/-- Wrapping subtraction `a - b` on `unsigned long`. -/
def usub (a b : Nat) : Nat :=
  (a % ULONG_MOD + (ULONG_MOD - b % ULONG_MOD)) % ULONG_MOD

/-! ## Debouncer -/

/-- Fields of `class Debouncer`. -/
structure Debouncer where
  /-- Field `const unsigned long BounceTime`. -/
  BounceTime : Nat
  /-- Field `unsigned long lastChange`. -/
  lastChange : Nat
  /-- Field `boolean state`. -/
  state : Bool
deriving DecidableEq

/-- Constructor `Debouncer(t, sState)`: `lastChange = 0 - t; state = sState`. -/
def Debouncer.new (t : Nat) (sState : Bool) : Debouncer :=
  { BounceTime := t, lastChange := usub 0 t, state := sState }

/-- Method `bouncing()`: `millis() - lastChange <= BounceTime`. -/
def Debouncer.bouncing (d : Debouncer) (now : Nat) : Bool :=
  decide (usub now d.lastChange ≤ d.BounceTime)

/-- Method `debounce(s)`: `if (s == state || bouncing()) return;
state = s; lastChange = millis();`. -/
def Debouncer.debounce (d : Debouncer) (s : Bool) (now : Nat) : Debouncer :=
  if s == d.state || d.bouncing now then d
  else { d with state := s, lastChange := now }

/-- Method `getState()`. -/
def Debouncer.getState (d : Debouncer) : Bool := d.state

/-- Method `heldFor()`: `millis() - lastChange`. -/
def Debouncer.heldFor (d : Debouncer) (now : Nat) : Nat :=
  usub now d.lastChange

/-! ## InputHandler -/

/-- Fields of `class InputHandler` (the pin number only selects which raw
level is read, and the raw level is an input here). -/
structure InputHandler where
  /-- Field `const boolean pullup`. -/
  pullup : Bool
  /-- Field `Debouncer bounce`. -/
  bounce : Debouncer
  /-- Field `boolean lastState = 0`. -/
  lastState : Bool
deriving DecidableEq

/-- Constructor `InputHandler(p, up)`: `bounce(DebounceTime, HIGH)`, with the
sketch constant `DebounceTime` taken as a parameter. -/
def InputHandler.new (DebounceTime : Nat) (up : Bool) : InputHandler :=
  { pullup := up, bounce := Debouncer.new DebounceTime true, lastState := false }

/-- Method `state()`: `bounce.getState() != pullup`. -/
def InputHandler.state (h : InputHandler) : Bool :=
  h.bounce.getState != h.pullup

/-- Method `update()`: `lastState = state(); bounce.debounce(digitalRead(Pin));`. -/
def InputHandler.update (h : InputHandler) (raw : Bool) (now : Nat) : InputHandler :=
  { h with lastState := h.state, bounce := h.bounce.debounce raw now }

/-- Method `changed()`: `state() != lastState`. -/
def InputHandler.changed (h : InputHandler) : Bool :=
  h.state != h.lastState

/-- Method `rising()`: `changed() && state() == HIGH`. -/
def InputHandler.rising (h : InputHandler) : Bool :=
  h.changed && (h.state == true)

/-- Method `falling()`: `changed() && state() == LOW`. -/
def InputHandler.falling (h : InputHandler) : Bool :=
  h.changed && (h.state == false)

/-- Method `heldFor()`: `bounce.heldFor()`. -/
def InputHandler.heldFor (h : InputHandler) (now : Nat) : Nat :=
  h.bounce.heldFor now

/-! ## PressCounter -/

/-- Fields of `class PressCounter`. -/
structure PressCounter where
  /-- Field `const unsigned long PressSpeed`. -/
  PressSpeed : Nat
  /-- Field `boolean finished = false`. -/
  finished : Bool
  /-- Field `unsigned long lastUpdate` (no initialiser in the source). -/
  lastUpdate : Nat
  /-- Field `uint8_t count = 0`. -/
  count : Nat
deriving DecidableEq

/-- Constructor `PressCounter(p, speed)`.  The source leaves `lastUpdate`
without an initial value; `junk` stands for whatever it holds. -/
def PressCounter.new (speed : Nat) (junk : Nat) : PressCounter :=
  { PressSpeed := speed, finished := false, lastUpdate := junk, count := 0 }

/-- Method `check()`. -/
def PressCounter.check (c : PressCounter) (pin : InputHandler) (now : Nat) :
    PressCounter :=
  let c1 : PressCounter :=
    if pin.rising then
      let c0 : PressCounter := if c.finished == true then { c with count := 0 } else c
      { c0 with finished := false, count := (c0.count + 1) % UINT8_MOD }
    else c
  if c1.count > 0 then
    if pin.state == true then { c1 with lastUpdate := now }
    else if usub now c1.lastUpdate > c1.PressSpeed then { c1 with finished := true }
    else c1
  else c1

/-- Method `getCount()`. -/
def PressCounter.getCount (c : PressCounter) : Nat := c.count

/-- Method `isDone()`. -/
def PressCounter.isDone (c : PressCounter) : Bool := c.finished

/-- Method `reset()`: `count = 0; lastUpdate = millis() - PressSpeed;`. -/
def PressCounter.reset (c : PressCounter) (now : Nat) : PressCounter :=
  { c with count := 0, lastUpdate := usub now c.PressSpeed }

/-! ## CommandIndex -/

/-- Fields of `class CommandIndex`. -/
structure CommandIndex where
  /-- Field `const uint8_t MaxCount`. -/
  MaxCount : Nat
  /-- Field `const unsigned long HoldTime`. -/
  HoldTime : Nat
  /-- Field `PressCounter counter`. -/
  counter : PressCounter
  /-- Field `uint8_t index = 0`. -/
  index : Nat
deriving DecidableEq

/-- Constructor `CommandIndex(p, rmax, rspeed, t_hold)`. -/
def CommandIndex.new (rmax rspeed t_hold junk : Nat) : CommandIndex :=
  { MaxCount := rmax, HoldTime := t_hold,
    counter := PressCounter.new rspeed junk, index := 0 }

/-- Method `setIndex()`. -/
def CommandIndex.setIndex (c : CommandIndex) (pin : InputHandler) (now : Nat) :
    CommandIndex :=
  if c.counter.isDone then
    let index0 := c.counter.getCount
    let index1 := if index0 > c.MaxCount then c.MaxCount else index0
    { c with index := index1, counter := c.counter.reset now }
  else if pin.state == true && decide (pin.heldFor now ≥ c.HoldTime) then
    { c with index := c.MaxCount, counter := c.counter.reset now }
  else
    { c with index := 0 }

/-- Method `update()`: `counter.check(); setIndex();`. -/
def CommandIndex.update (c : CommandIndex) (pin : InputHandler) (now : Nat) :
    CommandIndex :=
  ({ c with counter := c.counter.check pin now }).setIndex pin now

/-- Method `getIndex()`. -/
def CommandIndex.getIndex (c : CommandIndex) : Nat := c.index

/-! ## Polling ticks -/

/-- Inputs of one polling tick: the raw pin level, the clock reading seen by
`InputHandler::update`, and the clock reading seen by the counter stage that
runs after it. -/
structure Tick where
  /-- Value of `digitalRead(Pin)`. -/
  raw : Bool
  /-- Value of `millis()` during `InputHandler::update`. -/
  tPin : Nat
  /-- Value of `millis()` during `PressCounter::check` / `CommandIndex::update`. -/
  tCmd : Nat
deriving DecidableEq

/-- A tick whose two stages see the same clock reading. -/
def Tick.sync (raw : Bool) (now : Nat) : Tick := { raw := raw, tPin := now, tCmd := now }

/-- One button's pipeline: an `InputHandler` and the `CommandIndex` bound to it. -/
structure Pipeline where
  /-- The `InputHandler`. -/
  pin : InputHandler
  /-- The `CommandIndex` whose `pin` reference is `pin`. -/
  index : CommandIndex
deriving DecidableEq

/-- One tick in pipeline order: `pin.update()` then `index.update()`. -/
def Pipeline.tick (s : Pipeline) (t : Tick) : Pipeline :=
  let p := s.pin.update t.raw t.tPin
  { pin := p, index := s.index.update p t.tCmd }

/-- A run of ticks. -/
def Pipeline.run (s : Pipeline) (ts : List Tick) : Pipeline :=
  ts.foldl Pipeline.tick s

/-- A pipeline as constructed at startup. -/
def Pipeline.new (DebounceTime : Nat) (up : Bool) (rmax rspeed t_hold junk : Nat) :
    Pipeline :=
  { pin := InputHandler.new DebounceTime up,
    index := CommandIndex.new rmax rspeed t_hold junk }


/-- Feeding a sequence of `debounce(sample)` calls, each with its clock reading. -/
def Debouncer.feed (d : Debouncer) (calls : List (Bool × Nat)) : Debouncer :=
  calls.foldl (fun e c => e.debounce c.1 c.2) d

/-- The burst-done branch of `setIndex` is the one taken on tick `t`:
`counter.isDone()` holds after `check()`. -/
def Pipeline.burstReported (s : Pipeline) (t : Tick) : Bool :=
  (s.index.counter.check (s.pin.update t.raw t.tPin) t.tCmd).isDone

/-- The hold branch of `setIndex` is the one taken on tick `t`: after
`check()` the burst is not done, the button is pressed and has been held for
at least `HoldTime`. -/
def Pipeline.holdReported (s : Pipeline) (t : Tick) : Bool :=
  let p := s.pin.update t.raw t.tPin
  !(s.index.counter.check p t.tCmd).isDone
    && (p.state == true && decide (p.heldFor t.tCmd ≥ s.index.HoldTime))

/-- No tick of the run shows a rising edge. -/
def Pipeline.noRising (s : Pipeline) : List Tick → Bool
  | [] => true
  | t :: ts => !(s.tick t).pin.rising && Pipeline.noRising (s.tick t) ts

/-- The button's logical state is pressed after every tick of the run. -/
def Pipeline.heldThrough (s : Pipeline) : List Tick → Bool
  | [] => true
  | t :: ts => (s.tick t).pin.state && Pipeline.heldThrough (s.tick t) ts

/-- The pipeline of the scenario of the specification, as constructed at
startup: pull-up wiring, a 5 ms debounce window, a 300 ms tap timeout, a
1000 ms hold threshold and 3 commands. -/
def scenarioPipeline : Pipeline := Pipeline.new 5 true 3 300 1000 0

/-! ## A counter on its own pin -/

/-- An `InputHandler` and a `PressCounter` bound to it, ticked without a
`CommandIndex`. -/
structure CounterRig where
  /-- The `InputHandler`. -/
  pin : InputHandler
  /-- The `PressCounter` whose `Pin` reference is `pin`. -/
  counter : PressCounter
deriving DecidableEq

/-- One tick in pipeline order: `pin.update()` then `counter.check()`. -/
def CounterRig.tick (r : CounterRig) (t : Tick) : CounterRig :=
  let p := r.pin.update t.raw t.tPin
  { pin := p, counter := r.counter.check p t.tCmd }

/-- A run of ticks. -/
def CounterRig.run (r : CounterRig) (ts : List Tick) : CounterRig :=
  ts.foldl CounterRig.tick r

/-- What an onlooker of the `InputHandler` has seen so far: the number of
rising edges, and the clock reading of the last tick on which the button was
pressed. -/
structure Observer where
  /-- The `InputHandler` being watched. -/
  pin : InputHandler
  /-- Number of ticks on which `rising()` held. -/
  edges : Nat
  /-- Clock reading (`tCmd`) of the last tick on which `state()` was `HIGH`. -/
  lastPressed : Nat
deriving DecidableEq

/-- An onlooker that has seen nothing yet (`d` fills `lastPressed`). -/
def Observer.start (pin : InputHandler) (d : Nat) : Observer :=
  { pin := pin, edges := 0, lastPressed := d }

/-- The onlooker after one more tick. -/
def Observer.tick (o : Observer) (t : Tick) : Observer :=
  let p := o.pin.update t.raw t.tPin
  { pin := p,
    edges := o.edges + (if p.rising then 1 else 0),
    lastPressed := if p.state then t.tCmd else o.lastPressed }

/-- The onlooker after a run of ticks. -/
def Observer.run (o : Observer) (ts : List Tick) : Observer :=
  ts.foldl Observer.tick o

/-- Tick `t` finds the button released with more than `speed` elapsed since
the last tick on which it was pressed. -/
def Observer.timedOut (speed : Nat) (o : Observer) (t : Tick) : Bool :=
  !(o.tick t).pin.state && decide (usub t.tCmd (o.tick t).lastPressed > speed)

/-- No tick of the run that comes after a rising edge is timed out. -/
def Observer.live (speed : Nat) (o : Observer) : List Tick → Bool
  | [] => true
  | t :: ts =>
    ((o.tick t).edges == 0 || !o.timedOut speed t) && Observer.live speed (o.tick t) ts

/-- The counter `r.counter` agrees with what the onlooker `o` has seen. -/
def CounterRig.Tracks (r : CounterRig) (o : Observer) : Prop :=
  r.pin = o.pin ∧ r.counter.finished = false ∧ r.counter.count = o.edges ∧
    (0 < o.edges → r.counter.lastUpdate = o.lastPressed)

/-- A train of `n` taps from clock reading `t` on, on a pull-up pin: pressed
for 10 ms, released for 10 ms. -/
def tapTrain : Nat → Nat → List Tick
  | 0, _ => []
  | n + 1, t => Tick.sync false t :: Tick.sync true (t + 10) :: tapTrain n (t + 20)

/-- The counter rig of the scenario of the specification, as constructed at
startup. -/
def scenarioRig : CounterRig :=
  { pin := InputHandler.new 5 true, counter := PressCounter.new 300 0 }

/-! ## MediaCommands (`src/MediaFootswitch_HID.h`) -/

/-- A call made on the HID `Consumer` object: `Consumer.press(key)` or
`Consumer.release(key)`.  Key codes (`ConsumerKeycode`) are naturals. -/
inductive HidEvent where
  /-- Call `Consumer.press(key)`. -/
  | press (key : Nat)
  /-- Call `Consumer.release(key)`. -/
  | release (key : Nat)
deriving DecidableEq

/-- Fields of `class MediaCommands<max_ncmds>`, with the template argument
as a field.  `commands` stands for the array `ConsumerKeycode
commands[max_ncmds]`. -/
structure MediaCommands where
  /-- Template argument `uint8_t max_ncmds`. -/
  max_ncmds : Nat
  /-- Field `CommandIndex index`. -/
  index : CommandIndex
  /-- Field `uint8_t lastCommand = 0`. -/
  lastCommand : Nat
  /-- Field `ConsumerKeycode commands[max_ncmds] = { MEDIA_PLAY_PAUSE }`. -/
  commands : List Nat
deriving DecidableEq

/-- Constructor `MediaCommands(p)`: `index(pin, NumCommands, RepeatTimeout,
HoldTime)`, with the sketch constants and the key code `MEDIA_PLAY_PAUSE`
taken as parameters; the array initialiser fills the first entry and zeroes
the rest. -/
def MediaCommands.new (max_ncmds NumCommands RepeatTimeout HoldTime junk
    MEDIA_PLAY_PAUSE : Nat) : MediaCommands :=
  { max_ncmds := max_ncmds,
    index := CommandIndex.new NumCommands RepeatTimeout HoldTime junk,
    lastCommand := 0,
    commands := (MEDIA_PLAY_PAUSE :: List.replicate (max_ncmds - 1) 0).take max_ncmds }

/-- The array read `commands[k]` with `k` an `int`: defined when
`0 ≤ k < max_ncmds`, `none` when out of bounds. -/
def MediaCommands.readCommand (m : MediaCommands) (k : Int) : Option Nat :=
  if 0 ≤ k ∧ k < (m.max_ncmds : Int) then some (m.commands.getD k.toNat 0) else none

/-- Method `run()`.  Returns the new state and the `Consumer` calls made, in
order; `none` if an array access is out of bounds. -/
def MediaCommands.run (m : MediaCommands) (pin : InputHandler) (now : Nat) :
    Option (MediaCommands × List HidEvent) :=
  let index1 := m.index.update pin now
  let command0 := index1.getIndex
  let command := if command0 > m.max_ncmds then 0 else command0
  if command != m.lastCommand then
    (if m.lastCommand != 0 then
        (m.readCommand ((m.lastCommand : Int) - 1)).map (fun key => [HidEvent.release key])
      else some []).bind fun released =>
    (if command != 0 then
        (m.readCommand ((command : Int) - 1)).map (fun key => [HidEvent.press key])
      else some []).bind fun pressed =>
    some ({ m with index := index1, lastCommand := command }, released ++ pressed)
  else
    some ({ m with index := index1, lastCommand := command }, [])

/-- A sequence of `run()` calls, each with the state of the pin and the clock
reading it sees; the `Consumer` calls are collected in order. -/
def MediaCommands.runs (m : MediaCommands) :
    List (InputHandler × Nat) → Option (MediaCommands × List HidEvent)
  | [] => some (m, [])
  | c :: cs =>
    (m.run c.1 c.2).bind fun r1 =>
    (MediaCommands.runs r1.1 cs).bind fun r2 =>
    some (r2.1, r1.2 ++ r2.2)

/-- Method `setCommands(cmds)` for a table of `cmds.length` entries:
`if (ncmds < max_ncmds) return;` then the loop
`for (i = 0; i < max_ncmds; i++) commands[i] = cmds[i];`. -/
def MediaCommands.setCommands (m : MediaCommands) (cmds : List Nat) : MediaCommands :=
  if cmds.length < m.max_ncmds then m
  else
    { m with commands :=
        (List.range m.max_ncmds).foldl (fun tbl i => tbl.set i (cmds.getD i 0)) m.commands }

/-- The key the dispatcher is holding down according to `lastCommand`. -/
def MediaCommands.heldKey (m : MediaCommands) : Option Nat :=
  if m.lastCommand != 0 then some (m.commands.getD (m.lastCommand - 1) 0) else none

/-- Replays `Consumer` calls against the key that is held: a press is allowed
only while no key is held, a release only of the key that is held.  Returns
the key held at the end, or `none` if a call breaks the pairing. -/
def HidEvent.replay : Option Nat → List HidEvent → Option (Option Nat)
  | held, [] => some held
  | none, HidEvent.press key :: es => HidEvent.replay (some key) es
  | some _, HidEvent.press _ :: _ => none
  | some h, HidEvent.release key :: es => if h = key then HidEvent.replay none es else none
  | none, HidEvent.release _ :: _ => none

/-! ## Tracking the initialisation of `lastUpdate` -/

/-- A `PressCounter` together with a flag telling whether `lastUpdate` has
been assigned since construction. -/
structure InitCounter where
  /-- The counter. -/
  counter : PressCounter
  /-- Whether `lastUpdate` has been assigned. -/
  assigned : Bool
deriving DecidableEq

/-- Constructor `PressCounter(p, speed)`: `lastUpdate` is not assigned. -/
def InitCounter.new (speed junk : Nat) : InitCounter :=
  { counter := PressCounter.new speed junk, assigned := false }

/-- Method `check()`, statement by statement as `PressCounter.check`, with the
flag set where `lastUpdate` is written; `none` if the timeout comparison
reads `lastUpdate` while it is unassigned. -/
def InitCounter.check (c : InitCounter) (pin : InputHandler) (now : Nat) :
    Option InitCounter :=
  let c1 : PressCounter :=
    if pin.rising then
      let c0 : PressCounter :=
        if c.counter.finished == true then { c.counter with count := 0 } else c.counter
      { c0 with finished := false, count := (c0.count + 1) % UINT8_MOD }
    else c.counter
  if c1.count > 0 then
    if pin.state == true then
      some { counter := { c1 with lastUpdate := now }, assigned := true }
    else if !c.assigned then none
    else if usub now c1.lastUpdate > c1.PressSpeed then
      some { counter := { c1 with finished := true }, assigned := c.assigned }
    else some { counter := c1, assigned := c.assigned }
  else some { counter := c1, assigned := c.assigned }

/-- Method `reset()`: it assigns `lastUpdate`. -/
def InitCounter.reset (c : InitCounter) (now : Nat) : InitCounter :=
  { counter := c.counter.reset now, assigned := true }

/-- What can happen to a counter between two polls: a tick in pipeline order
(`InputHandler::update` then `check()`), or a call of `reset()`. -/
inductive CounterOp where
  /-- A tick: `pin.update()` then `counter.check()`. -/
  | tick (t : Tick)
  /-- A call `counter.reset()` at clock reading `now`. -/
  | reset (now : Nat)
deriving DecidableEq

/-- An `InputHandler` and the initialisation-tracking counter bound to it. -/
structure InitRig where
  /-- The `InputHandler`. -/
  pin : InputHandler
  /-- The counter with its flag. -/
  counter : InitCounter
deriving DecidableEq

/-- One operation on the rig; `none` on a read of the unassigned timer. -/
def InitRig.step (r : InitRig) : CounterOp → Option InitRig
  | CounterOp.tick t =>
    (r.counter.check (r.pin.update t.raw t.tPin) t.tCmd).map
      (fun c => { pin := r.pin.update t.raw t.tPin, counter := c })
  | CounterOp.reset now => some { pin := r.pin, counter := r.counter.reset now }

/-- A sequence of operations on the rig. -/
def InitRig.run (r : InitRig) : List CounterOp → Option InitRig
  | [] => some r
  | op :: ops => (r.step op).bind (fun r1 => InitRig.run r1 ops)

/-! ## The two-tap scenario -/

/-- Ticks one millisecond apart: `n` ticks from clock reading `t` on, the raw
pin level at each reading given by `raw`. -/
def msTicks (raw : Nat → Bool) : Nat → Nat → List Tick
  | _, 0 => []
  | t, n + 1 => Tick.sync (raw t) t :: msTicks raw (t + 1) n

/-- Raw level of a pull-up pin whose button is down from `p1` up to `r1` and
from `p2` up to `r2` (`LOW` while pressed). -/
def twoTapsRaw (p1 r1 p2 r2 : Nat) (t : Nat) : Bool :=
  !((decide (p1 ≤ t) && decide (t < r1)) || (decide (p2 ≤ t) && decide (t < r2)))

/-- State of the scenario pipeline (its `lastUpdate` holding `junk` at
construction) after the tick at clock reading `t` of the two-tap run, in
closed form: waiting, first press, first release, second
press, second release, and burst reported. -/
def twoTapsState (junk p1 r1 p2 r2 : Nat) (t : Nat) : Pipeline :=
  if t < p1 then ⟨⟨true, ⟨5, usub 0 5, true⟩, false⟩, ⟨3, 1000, ⟨300, false, junk, 0⟩, 0⟩⟩
  else if t < r1 then
    ⟨⟨true, ⟨5, p1, false⟩, decide (p1 < t)⟩, ⟨3, 1000, ⟨300, false, t, 1⟩, 0⟩⟩
  else if t < p2 then
    ⟨⟨true, ⟨5, r1, true⟩, decide (t = r1)⟩, ⟨3, 1000, ⟨300, false, r1 - 1, 1⟩, 0⟩⟩
  else if t < r2 then
    ⟨⟨true, ⟨5, p2, false⟩, decide (p2 < t)⟩, ⟨3, 1000, ⟨300, false, t, 2⟩, 0⟩⟩
  else if t < r2 + 300 then
    ⟨⟨true, ⟨5, r2, true⟩, decide (t = r2)⟩, ⟨3, 1000, ⟨300, false, r2 - 1, 2⟩, 0⟩⟩
  else
    ⟨⟨true, ⟨5, r2, true⟩, false⟩,
      ⟨3, 1000, ⟨300, true, t - 300, 0⟩, if t = r2 + 300 then 2 else 0⟩⟩

/-! # Theorems -/

/-! ## Arithmetic of the wrapping clock -/

theorem usub_self (a : Nat) : usub a a = 0 := by
  simp only [usub, ULONG_MOD]; omega

theorem usub_lt (a b : Nat) : usub a b < ULONG_MOD := by
  simp only [usub, ULONG_MOD]; omega

theorem usub_of_le (a b : Nat) (hab : b ≤ a) (ha : a < ULONG_MOD) : usub a b = a - b := by
  simp only [usub, ULONG_MOD] at *; omega

/-! ## Debouncer -/

theorem Debouncer.debounce_of_bouncing (d : Debouncer) (s : Bool) (now : Nat)
    (hb : usub now d.lastChange ≤ d.BounceTime) : d.debounce s now = d := by
  simp [Debouncer.debounce, Debouncer.bouncing, hb]

theorem Debouncer.debounce_same (d : Debouncer) (now : Nat) :
    d.debounce d.state now = d := by
  simp [Debouncer.debounce]

theorem Debouncer.debounce_accept (d : Debouncer) (s : Bool) (now : Nat)
    (hs : s ≠ d.state) (hb : d.BounceTime < usub now d.lastChange) :
    d.debounce s now = { d with state := s, lastChange := now } := by
  have h1 : (s == d.state) = false := by simpa using hs
  have h2 : d.bouncing now = false := by
    simp only [Debouncer.bouncing, decide_eq_false_iff_not]; omega
  simp [Debouncer.debounce, h1, h2]

theorem Debouncer.feed_of_bouncing (d : Debouncer) (calls : List (Bool × Nat))
    (hwin : ∀ c ∈ calls, usub c.2 d.lastChange ≤ d.BounceTime) : d.feed calls = d := by
  induction calls with
  | nil => rfl
  | cons c cs ih =>
    have hc : d.debounce c.1 c.2 = d :=
      d.debounce_of_bouncing c.1 c.2 (hwin c (List.mem_cons_self c cs))
    have hcs : ∀ x ∈ cs, usub x.2 d.lastChange ≤ d.BounceTime :=
      fun x hx => hwin x (List.mem_cons_of_mem c hx)
    simp only [Debouncer.feed, List.foldl_cons, hc]
    exact ih hcs

/-- C8. Debounce suppression: calls to `debounce` that are all made within
`BounceTime` of the last accepted change leave the debounced state and the
recorded transition time as they were, whatever the samples are; and a call
whose sample equals the current state changes nothing, at any clock reading. -/
theorem debounce_suppression (d : Debouncer) (calls : List (Bool × Nat))
    (hwin : ∀ c ∈ calls, usub c.2 d.lastChange ≤ d.BounceTime) :
    (∀ pre, pre <+: calls →
        (d.feed pre).getState = d.getState ∧ (d.feed pre).lastChange = d.lastChange) ∧
      (∀ now, d.debounce d.getState now = d) := by
  refine ⟨fun pre hpre => ?_, fun now => d.debounce_same now⟩
  have hpre_win : ∀ c ∈ pre, usub c.2 d.lastChange ≤ d.BounceTime :=
    fun c hc => hwin c (hpre.subset hc)
  rw [d.feed_of_bouncing pre hpre_win]
  exact ⟨rfl, rfl⟩

/-- Witness for C8: a debouncer whose last change was at 100 ms with a 5 ms
window ignores toggling samples at 101, 103 and 105 ms. -/
theorem debounce_suppression_witness :
    (∀ pre, pre <+: [(false, 101), (true, 103), (false, 105)] →
        (Debouncer.feed ⟨5, 100, true⟩ pre).getState = true ∧
          (Debouncer.feed ⟨5, 100, true⟩ pre).lastChange = 100) ∧
      (∀ now, Debouncer.debounce ⟨5, 100, true⟩ true now = ⟨5, 100, true⟩) :=
  debounce_suppression ⟨5, 100, true⟩ [(false, 101), (true, 103), (false, 105)]
    (by decide)

/-- C9 as stated fails at the boundary: with a 5 ms window and the last
change at 100 ms, a differing sample at 105 ms (elapsed = window) is still
rejected. -/
theorem debounce_boundary_rejected :
    Debouncer.heldFor ⟨5, 100, true⟩ 105 ≥ 5 ∧
      (Debouncer.debounce ⟨5, 100, true⟩ false 105).getState = true := by
  decide

/-- C9 (amended). Debounce acceptance: a `debounce(sample)` call with a
sample different from the current state, made when strictly more than
`BounceTime` has elapsed since the last accepted change, is accepted at
once: the state becomes the sample and `heldFor()` at the same clock reading
is 0. -/
theorem debounce_acceptance (d : Debouncer) (s : Bool) (now : Nat)
    (hs : s ≠ d.getState) (hb : d.BounceTime < d.heldFor now) :
    (d.debounce s now).getState = s ∧ (d.debounce s now).heldFor now = 0 := by
  rw [d.debounce_accept s now hs hb]
  exact ⟨rfl, usub_self now⟩

/-- Witness for C9 (amended): a differing sample at 106 ms is accepted. -/
theorem debounce_acceptance_witness :
    (Debouncer.debounce ⟨5, 100, true⟩ false 106).getState = false ∧
      (Debouncer.debounce ⟨5, 100, true⟩ false 106).heldFor 106 = 0 :=
  debounce_acceptance ⟨5, 100, true⟩ false 106 (by decide) (by decide)

/-! ## InputHandler -/

theorem InputHandler.update_lastState (h : InputHandler) (raw : Bool) (now : Nat) :
    (h.update raw now).lastState = h.state := rfl

theorem InputHandler.rising_iff (h : InputHandler) :
    h.rising = true ↔ h.state = true ∧ h.lastState = false := by
  unfold InputHandler.rising InputHandler.changed
  cases h.state <;> cases h.lastState <;> simp

theorem InputHandler.falling_iff (h : InputHandler) :
    h.falling = true ↔ h.state = false ∧ h.lastState = true := by
  unfold InputHandler.falling InputHandler.changed
  cases h.state <;> cases h.lastState <;> simp

theorem InputHandler.state_of_rising (h : InputHandler) (hr : h.rising = true) :
    h.state = true := (h.rising_iff.mp hr).1

/-- C10. Edge detection is tick-local: after `update()`, `rising()` holds
iff `state()` is true now and was false just before this update, `falling()`
holds iff `state()` is false now and was true just before; so neither can
hold after both of two consecutive `update()` calls. -/
theorem edge_detection_tick_local (h : InputHandler) (raw raw2 : Bool) (now now2 : Nat) :
    ((h.update raw now).rising = true ↔
        (h.update raw now).state = true ∧ h.state = false) ∧
      ((h.update raw now).falling = true ↔
        (h.update raw now).state = false ∧ h.state = true) ∧
      ¬ ((h.update raw now).rising = true ∧
          ((h.update raw now).update raw2 now2).rising = true) ∧
      ¬ ((h.update raw now).falling = true ∧
          ((h.update raw now).update raw2 now2).falling = true) := by
  refine ⟨?_, ?_, ?_, ?_⟩
  · rw [InputHandler.rising_iff, InputHandler.update_lastState]
  · rw [InputHandler.falling_iff, InputHandler.update_lastState]
  · rintro ⟨h1, h2⟩
    rw [InputHandler.rising_iff] at h1 h2
    rw [InputHandler.update_lastState] at h2
    rw [h1.1] at h2
    exact Bool.noConfusion h2.2
  · rintro ⟨h1, h2⟩
    rw [InputHandler.falling_iff] at h1 h2
    rw [InputHandler.update_lastState] at h2
    rw [h1.1] at h2
    exact Bool.noConfusion h2.2

/-! ## PressCounter -/

/-- C7. Count reset on a new burst: from any counter state with `isDone()`
true and any count, a `check()` on a tick with a rising edge leaves
`getCount() == 1` and `isDone() == false`. -/
theorem count_reset_on_new_burst (c : PressCounter) (pin : InputHandler) (now : Nat)
    (hdone : c.isDone = true) (hr : pin.rising = true) :
    (c.check pin now).getCount = 1 ∧ (c.check pin now).isDone = false := by
  have hf : c.finished = true := hdone
  have hst : pin.state = true := pin.state_of_rising hr
  simp [PressCounter.check, PressCounter.getCount, PressCounter.isDone, hr, hf, hst,
    UINT8_MOD]

/-- Witness for C7: a finished burst of 2 taps followed by a rising edge
restarts the count at 1. -/
theorem count_reset_on_new_burst_witness :
    (PressCounter.check ⟨300, true, 50, 2⟩ ⟨true, ⟨5, 400, false⟩, false⟩ 400).getCount = 1 ∧
      (PressCounter.check ⟨300, true, 50, 2⟩ ⟨true, ⟨5, 400, false⟩, false⟩ 400).isDone
        = false :=
  count_reset_on_new_burst ⟨300, true, 50, 2⟩ ⟨true, ⟨5, 400, false⟩, false⟩ 400
    (by decide) (by decide)

/-! ## CommandIndex -/

theorem CommandIndex.update_done (c : CommandIndex) (pin : InputHandler) (now : Nat)
    (hd : (c.counter.check pin now).finished = true) :
    c.update pin now =
      { c with index := min (c.counter.check pin now).count c.MaxCount,
               counter := (c.counter.check pin now).reset now } := by
  have hm : (if (c.counter.check pin now).count > c.MaxCount then c.MaxCount
      else (c.counter.check pin now).count) = min (c.counter.check pin now).count c.MaxCount := by
    split <;> omega
  simp only [CommandIndex.update, CommandIndex.setIndex, PressCounter.isDone, hd,
    PressCounter.getCount, if_true, hm]

theorem CommandIndex.update_hold (c : CommandIndex) (pin : InputHandler) (now : Nat)
    (hd : (c.counter.check pin now).finished = false) (hs : pin.state = true)
    (hh : c.HoldTime ≤ pin.heldFor now) :
    c.update pin now =
      { c with index := c.MaxCount, counter := (c.counter.check pin now).reset now } := by
  simp [CommandIndex.update, CommandIndex.setIndex, PressCounter.isDone, hd, hs, hh]

theorem CommandIndex.update_idle (c : CommandIndex) (pin : InputHandler) (now : Nat)
    (hd : (c.counter.check pin now).finished = false)
    (hn : ¬ (pin.state = true ∧ c.HoldTime ≤ pin.heldFor now)) :
    c.update pin now = { c with index := 0, counter := c.counter.check pin now } := by
  have hc : (pin.state == true && decide (pin.heldFor now ≥ c.HoldTime)) = false := by
    cases hst : pin.state
    · simp
    · have : ¬ c.HoldTime ≤ pin.heldFor now := fun h => hn ⟨hst, h⟩
      simp [this]
  simp only [CommandIndex.update, CommandIndex.setIndex, PressCounter.isDone, hd, hc]
  simp

/-- C5. `CommandIndex.update()` runs `check()` and then decides the index by
strict priority: (a) burst done: index = min(count, MaxCount), counter
reset; (b) else pressed and held for at least `HoldTime`: index = MaxCount,
counter reset; (c) else index = 0 and the counter is as `check()` left it.
When the conditions of (a) and (b) hold together the tap count is reported. -/
theorem update_priority (c : CommandIndex) (pin : InputHandler) (now : Nat) :
    ((c.counter.check pin now).isDone = true →
        (c.update pin now).getIndex = min (c.counter.check pin now).getCount c.MaxCount ∧
          (c.update pin now).counter = (c.counter.check pin now).reset now) ∧
      ((c.counter.check pin now).isDone = false →
        pin.state = true ∧ pin.heldFor now ≥ c.HoldTime →
        (c.update pin now).getIndex = c.MaxCount ∧
          (c.update pin now).counter = (c.counter.check pin now).reset now) ∧
      ((c.counter.check pin now).isDone = false →
        ¬ (pin.state = true ∧ pin.heldFor now ≥ c.HoldTime) →
        (c.update pin now).getIndex = 0 ∧
          (c.update pin now).counter = c.counter.check pin now) ∧
      ((c.counter.check pin now).isDone = true →
        pin.state = true ∧ pin.heldFor now ≥ c.HoldTime →
        (c.update pin now).getIndex = min (c.counter.check pin now).getCount c.MaxCount) := by
  refine ⟨fun hd => ?_, fun hd hh => ?_, fun hd hn => ?_, fun hd _ => ?_⟩
  · rw [c.update_done pin now hd]; exact ⟨rfl, rfl⟩
  · rw [c.update_hold pin now hd hh.1 hh.2]; exact ⟨rfl, rfl⟩
  · rw [c.update_idle pin now hd hn]; exact ⟨rfl, rfl⟩
  · rw [c.update_done pin now hd]; rfl

/-- C4. Index ceiling: after `update()`, from any state, `getIndex()` is at
most `MaxCount`; a completed burst whose count exceeds `MaxCount` reports
exactly `MaxCount`, and one whose count is at most `MaxCount` reports the
count. -/
theorem index_ceiling (c : CommandIndex) (pin : InputHandler) (now : Nat) :
    (c.update pin now).getIndex ≤ c.MaxCount ∧
      ((c.counter.check pin now).isDone = true →
        (c.counter.check pin now).getCount > c.MaxCount →
        (c.update pin now).getIndex = c.MaxCount) ∧
      ((c.counter.check pin now).isDone = true →
        (c.counter.check pin now).getCount ≤ c.MaxCount →
        (c.update pin now).getIndex = (c.counter.check pin now).getCount) := by
  refine ⟨?_, fun hd hgt => ?_, fun hd hle => ?_⟩
  · cases hd : (c.counter.check pin now).finished
    · by_cases hh : pin.state = true ∧ c.HoldTime ≤ pin.heldFor now
      · rw [c.update_hold pin now hd hh.1 hh.2]; exact Nat.le_refl _
      · rw [c.update_idle pin now hd hh]; exact Nat.zero_le _
    · rw [c.update_done pin now hd]; exact Nat.min_le_right _ _
  · rw [c.update_done pin now hd]
    exact Nat.min_eq_right (Nat.le_of_lt hgt)
  · rw [c.update_done pin now hd]
    exact Nat.min_eq_left hle

/-- Witness for C5: the four cases of `update_priority` at concrete inputs
(a finished burst of 5 taps with 3 commands, also while the button is held
past the threshold; a hold with one tap pending; an idle tick). -/
theorem update_priority_witness :
    ((CommandIndex.update ⟨3, 1000, ⟨300, true, 0, 5⟩, 0⟩
          ⟨true, ⟨5, 100, true⟩, false⟩ 700).getIndex = 3 ∧
        (CommandIndex.update ⟨3, 1000, ⟨300, true, 0, 5⟩, 0⟩
          ⟨true, ⟨5, 100, true⟩, false⟩ 700).counter = ⟨300, true, 400, 0⟩) ∧
      ((CommandIndex.update ⟨3, 1000, ⟨300, false, 1099, 1⟩, 0⟩
          ⟨true, ⟨5, 100, false⟩, true⟩ 1100).getIndex = 3 ∧
        (CommandIndex.update ⟨3, 1000, ⟨300, false, 1099, 1⟩, 0⟩
          ⟨true, ⟨5, 100, false⟩, true⟩ 1100).counter = ⟨300, false, 800, 0⟩) ∧
      ((CommandIndex.update ⟨3, 1000, ⟨300, false, 499, 1⟩, 0⟩
          ⟨true, ⟨5, 100, false⟩, true⟩ 500).getIndex = 0 ∧
        (CommandIndex.update ⟨3, 1000, ⟨300, false, 499, 1⟩, 0⟩
          ⟨true, ⟨5, 100, false⟩, true⟩ 500).counter = ⟨300, false, 500, 1⟩) ∧
      (CommandIndex.update ⟨3, 1000, ⟨300, true, 0, 2⟩, 0⟩
          ⟨true, ⟨5, 100, false⟩, true⟩ 1100).getIndex = 2 :=
  ⟨(update_priority ⟨3, 1000, ⟨300, true, 0, 5⟩, 0⟩ ⟨true, ⟨5, 100, true⟩, false⟩ 700).1
      (by decide),
    (update_priority ⟨3, 1000, ⟨300, false, 1099, 1⟩, 0⟩
      ⟨true, ⟨5, 100, false⟩, true⟩ 1100).2.1 (by decide) (by decide),
    (update_priority ⟨3, 1000, ⟨300, false, 499, 1⟩, 0⟩
      ⟨true, ⟨5, 100, false⟩, true⟩ 500).2.2.1 (by decide) (by decide),
    (update_priority ⟨3, 1000, ⟨300, true, 0, 2⟩, 0⟩
      ⟨true, ⟨5, 100, false⟩, true⟩ 1100).2.2.2 (by decide) (by decide)⟩

/-- Witness for C4: with 3 commands a finished burst of 5 taps reports 3 and
a finished burst of 2 taps reports 2. -/
theorem index_ceiling_witness :
    (CommandIndex.update ⟨3, 1000, ⟨300, true, 0, 5⟩, 0⟩
        ⟨true, ⟨5, 100, true⟩, false⟩ 700).getIndex = 3 ∧
      (CommandIndex.update ⟨3, 1000, ⟨300, true, 0, 2⟩, 0⟩
        ⟨true, ⟨5, 100, true⟩, false⟩ 700).getIndex = 2 :=
  ⟨(index_ceiling ⟨3, 1000, ⟨300, true, 0, 5⟩, 0⟩ ⟨true, ⟨5, 100, true⟩, false⟩ 700).2.1
      (by decide) (by decide),
    (index_ceiling ⟨3, 1000, ⟨300, true, 0, 2⟩, 0⟩ ⟨true, ⟨5, 100, true⟩, false⟩ 700).2.2
      (by decide) (by decide)⟩

/-! ## Runs of the pipeline -/

theorem Pipeline.run_nil (s : Pipeline) : s.run [] = s := rfl

theorem Pipeline.run_cons (s : Pipeline) (t : Tick) (ts : List Tick) :
    s.run (t :: ts) = (s.tick t).run ts := rfl

theorem Pipeline.run_append (s : Pipeline) (a b : List Tick) :
    s.run (a ++ b) = (s.run a).run b := by
  simp [Pipeline.run, List.foldl_append]

theorem Pipeline.noRising_append (s : Pipeline) (a b : List Tick) :
    s.noRising (a ++ b) = (s.noRising a && (s.run a).noRising b) := by
  induction a generalizing s with
  | nil => simp [Pipeline.noRising, Pipeline.run_nil]
  | cons t ts ih =>
    rw [List.cons_append]
    simp only [Pipeline.noRising, Pipeline.run_cons, ih, Bool.and_assoc]

theorem Pipeline.heldThrough_append (s : Pipeline) (a b : List Tick) :
    s.heldThrough (a ++ b) = (s.heldThrough a && (s.run a).heldThrough b) := by
  induction a generalizing s with
  | nil => simp [Pipeline.heldThrough, Pipeline.run_nil]
  | cons t ts ih =>
    rw [List.cons_append]
    simp only [Pipeline.heldThrough, Pipeline.run_cons, ih, Bool.and_assoc]

theorem PressCounter.check_idle (c : PressCounter) (pin : InputHandler) (now : Nat)
    (hr : pin.rising = false) (hc : c.count = 0) : c.check pin now = c := by
  simp [PressCounter.check, hr, hc]

theorem PressCounter.check_count (c : PressCounter) (pin : InputHandler) (now : Nat) :
    (c.check pin now).count =
      if pin.rising = true then ((if c.finished = true then 0 else c.count) + 1) % UINT8_MOD
      else c.count := by
  unfold PressCounter.check
  cases pin.rising <;> cases c.finished <;> simp <;> split_ifs <;> rfl

theorem PressCounter.check_PressSpeed (c : PressCounter) (pin : InputHandler) (now : Nat) :
    (c.check pin now).PressSpeed = c.PressSpeed := by
  unfold PressCounter.check
  cases pin.rising <;> cases c.finished <;> simp <;> split_ifs <;> rfl

theorem PressCounter.check_finished_of_pressed (c : PressCounter) (pin : InputHandler)
    (now : Nat) (hr : pin.rising = false) (hs : pin.state = true) :
    (c.check pin now).finished = c.finished := by
  unfold PressCounter.check
  simp only [hr, hs]
  split_ifs <;> first | rfl | simp_all

theorem PressCounter.check_finished_of_rising (c : PressCounter) (pin : InputHandler)
    (now : Nat) (hr : pin.rising = true) : (c.check pin now).finished = false := by
  have hs : pin.state = true := pin.state_of_rising hr
  unfold PressCounter.check
  simp only [hr, hs]
  split_ifs <;> first | rfl | simp_all

theorem CommandIndex.update_MaxCount (c : CommandIndex) (pin : InputHandler) (now : Nat) :
    (c.update pin now).MaxCount = c.MaxCount := by
  simp only [CommandIndex.update, CommandIndex.setIndex]
  split
  · rfl
  · split <;> rfl

theorem CommandIndex.update_HoldTime (c : CommandIndex) (pin : InputHandler) (now : Nat) :
    (c.update pin now).HoldTime = c.HoldTime := by
  simp only [CommandIndex.update, CommandIndex.setIndex]
  split
  · rfl
  · split <;> rfl

/-- After a reported burst the counter stays "done with count 0" for as long
as no rising edge arrives, and every such tick reports index 0. -/
theorem Pipeline.quiet_after_burst (s : Pipeline) (ts : List Tick)
    (hf : s.index.counter.finished = true) (hc : s.index.counter.count = 0)
    (hq : s.noRising ts = true) :
    (s.run ts).index.counter.finished = true ∧ (s.run ts).index.counter.count = 0 ∧
      (ts ≠ [] → (s.run ts).index.index = 0) := by
  induction ts generalizing s with
  | nil => exact ⟨hf, hc, fun h => absurd rfl h⟩
  | cons t ts ih =>
    simp only [Pipeline.noRising, Bool.and_eq_true, Bool.not_eq_true'] at hq
    have hr : (s.pin.update t.raw t.tPin).rising = false := hq.1
    have hk : s.index.counter.check (s.pin.update t.raw t.tPin) t.tCmd = s.index.counter :=
      s.index.counter.check_idle _ _ hr hc
    have hd : (s.index.counter.check (s.pin.update t.raw t.tPin) t.tCmd).finished = true := by
      rw [hk]; exact hf
    have hu := s.index.update_done (s.pin.update t.raw t.tPin) t.tCmd hd
    rw [hk] at hu
    have hf1 : (s.tick t).index.counter.finished = true := by
      show (s.index.update _ _).counter.finished = true
      rw [hu]; exact hf
    have hc1 : (s.tick t).index.counter.count = 0 := by
      show (s.index.update _ _).counter.count = 0
      rw [hu]; rfl
    have hi1 : (s.tick t).index.index = 0 := by
      show (s.index.update _ _).index = 0
      rw [hu]; simp [hc]
    obtain ⟨h1, h2, h3⟩ := ih (s.tick t) hf1 hc1 hq.2
    refine ⟨h1, h2, fun _ => ?_⟩
    cases ts with
    | nil => exact hi1
    | cons u us => exact h3 (List.cons_ne_nil u us)

/-- C2. Burst pulse width: on a tick where the burst-done branch is taken
the index is min(count, MaxCount); if the next tick brings no rising edge the
index is 0 on it, and it stays 0 on every further tick until a rising edge. -/
theorem burst_pulse_width (s : Pipeline) (t next : Tick) (later : List Tick)
    (hburst : s.burstReported t = true)
    (hquiet : (s.tick t).noRising (next :: later) = true) :
    (s.tick t).index.getIndex =
        min (s.index.counter.check (s.pin.update t.raw t.tPin) t.tCmd).getCount
          s.index.MaxCount ∧
      ((s.tick t).tick next).index.getIndex = 0 ∧
      ((s.tick t).run (next :: later)).index.getIndex = 0 := by
  have hd : (s.index.counter.check (s.pin.update t.raw t.tPin) t.tCmd).finished = true :=
    hburst
  have hu := s.index.update_done (s.pin.update t.raw t.tPin) t.tCmd hd
  have hf1 : (s.tick t).index.counter.finished = true := by
    show (s.index.update _ _).counter.finished = true
    rw [hu]; exact hd
  have hc1 : (s.tick t).index.counter.count = 0 := by
    show (s.index.update _ _).counter.count = 0
    rw [hu]; rfl
  have hq1 : (s.tick t).noRising [next] = true := by
    simp only [Pipeline.noRising, Bool.and_eq_true] at hquiet
    simp only [Pipeline.noRising, Bool.and_true]
    exact hquiet.1
  refine ⟨?_, ?_, ?_⟩
  · show (s.index.update _ _).index = _
    rw [hu]; rfl
  · exact ((s.tick t).quiet_after_burst [next] hf1 hc1 hq1).2.2 (List.cons_ne_nil _ _)
  · exact ((s.tick t).quiet_after_burst (next :: later) hf1 hc1 hquiet).2.2
      (List.cons_ne_nil _ _)

/-- Witness for C2: a burst of two taps completes at 700 ms (index 2); the
quiet ticks at 701 ms and 702 ms report 0. -/
theorem burst_pulse_width_witness :
    (Pipeline.tick ⟨⟨true, ⟨5, 300, true⟩, false⟩, ⟨3, 1000, ⟨300, false, 290, 2⟩, 0⟩⟩
        (Tick.sync true 700)).index.getIndex = 2 ∧
      ((Pipeline.tick ⟨⟨true, ⟨5, 300, true⟩, false⟩, ⟨3, 1000, ⟨300, false, 290, 2⟩, 0⟩⟩
        (Tick.sync true 700)).tick (Tick.sync true 701)).index.getIndex = 0 ∧
      ((Pipeline.tick ⟨⟨true, ⟨5, 300, true⟩, false⟩, ⟨3, 1000, ⟨300, false, 290, 2⟩, 0⟩⟩
        (Tick.sync true 700)).run [Tick.sync true 701, Tick.sync true 702]).index.getIndex
        = 0 :=
  burst_pulse_width ⟨⟨true, ⟨5, 300, true⟩, false⟩, ⟨3, 1000, ⟨300, false, 290, 2⟩, 0⟩⟩
    (Tick.sync true 700) (Tick.sync true 701) [Tick.sync true 702] (by decide) (by decide)

/-! ## Holds -/

/-- After the hold branch has been taken the counter is "not done with count
0", and it stays so for as long as no rising edge arrives; every such tick on
which the button is released reports index 0. -/
theorem Pipeline.quiet_after_hold (s : Pipeline) (ts : List Tick)
    (hf : s.index.counter.finished = false) (hc : s.index.counter.count = 0)
    (hq : s.noRising ts = true) :
    (s.run ts).index.counter.finished = false ∧ (s.run ts).index.counter.count = 0 ∧
      (ts ≠ [] → (s.run ts).pin.state = false → (s.run ts).index.index = 0) := by
  induction ts generalizing s with
  | nil => exact ⟨hf, hc, fun h => absurd rfl h⟩
  | cons t ts ih =>
    simp only [Pipeline.noRising, Bool.and_eq_true, Bool.not_eq_true'] at hq
    have hr : (s.pin.update t.raw t.tPin).rising = false := hq.1
    have hk : s.index.counter.check (s.pin.update t.raw t.tPin) t.tCmd = s.index.counter :=
      s.index.counter.check_idle _ _ hr hc
    have hd : (s.index.counter.check (s.pin.update t.raw t.tPin) t.tCmd).finished = false := by
      rw [hk]; exact hf
    have hstep : (s.tick t).index.counter.finished = false ∧
        (s.tick t).index.counter.count = 0 ∧
        ((s.tick t).pin.state = false → (s.tick t).index.index = 0) := by
      by_cases hh : (s.pin.update t.raw t.tPin).state = true ∧
          s.index.HoldTime ≤ (s.pin.update t.raw t.tPin).heldFor t.tCmd
      · have hu := s.index.update_hold (s.pin.update t.raw t.tPin) t.tCmd hd hh.1 hh.2
        rw [hk] at hu
        refine ⟨?_, ?_, fun hlow => ?_⟩
        · show (s.index.update _ _).counter.finished = false
          rw [hu]; exact hf
        · show (s.index.update _ _).counter.count = 0
          rw [hu]; rfl
        · have hlow1 : (s.pin.update t.raw t.tPin).state = false := hlow
          rw [hh.1] at hlow1
          exact Bool.noConfusion hlow1
      · have hu := s.index.update_idle (s.pin.update t.raw t.tPin) t.tCmd hd hh
        rw [hk] at hu
        refine ⟨?_, ?_, fun _ => ?_⟩
        · show (s.index.update _ _).counter.finished = false
          rw [hu]; exact hf
        · show (s.index.update _ _).counter.count = 0
          rw [hu]; exact hc
        · show (s.index.update _ _).index = 0
          rw [hu]
    obtain ⟨h1, h2, h3⟩ := ih (s.tick t) hstep.1 hstep.2.1 hq.2
    refine ⟨h1, h2, fun _ hlow => ?_⟩
    cases ts with
    | nil => exact hstep.2.2 hlow
    | cons u us => exact h3 (List.cons_ne_nil u us) hlow

/-- C6. A hold is never also reported as taps: on a tick where the hold
branch is taken the index is `MaxCount` and `getCount()` is 0 afterwards,
whatever count had accumulated; and on every later tick of a run without a
new rising edge on which the button is released (the release tick and all
ticks after it) `getIndex()` is 0. -/
theorem hold_never_reported_as_taps (s : Pipeline) (t : Tick) (ts : List Tick)
    (hhold : s.holdReported t = true)
    (hquiet : (s.tick t).noRising ts = true)
    (hreleased : ((s.tick t).run ts).pin.state = false) :
    (s.tick t).index.getIndex = s.index.MaxCount ∧
      (s.tick t).index.counter.getCount = 0 ∧
      ((s.tick t).run ts).index.counter.getCount = 0 ∧
      ((s.tick t).run ts).index.getIndex = 0 := by
  simp only [Pipeline.holdReported, PressCounter.isDone, Bool.and_eq_true,
    Bool.not_eq_true', beq_iff_eq, decide_eq_true_eq] at hhold
  obtain ⟨hd, hs, hh⟩ := hhold
  have hu := s.index.update_hold (s.pin.update t.raw t.tPin) t.tCmd hd hs hh
  have hf1 : (s.tick t).index.counter.finished = false := by
    show (s.index.update _ _).counter.finished = false
    rw [hu]; exact hd
  have hc1 : (s.tick t).index.counter.count = 0 := by
    show (s.index.update _ _).counter.count = 0
    rw [hu]; rfl
  have hne : ts ≠ [] := by
    rintro rfl
    have hs1 : (s.tick t).pin.state = true := hs
    rw [Pipeline.run_nil, hs1] at hreleased
    exact Bool.noConfusion hreleased
  obtain ⟨_, h2, h3⟩ := (s.tick t).quiet_after_hold ts hf1 hc1 hquiet
  refine ⟨?_, hc1, h2, h3 hne hreleased⟩
  show (s.index.update _ _).index = _
  rw [hu]

/-- Witness for C6: one tap is pending (count 1) when a press held since
100 ms crosses the 1000 ms threshold at 1100 ms; the button is still held at
1101 ms and released from 1102 ms on: no index is reported after release,
not even once the 300 ms tap timeout has passed. -/
theorem hold_never_reported_as_taps_witness :
    (Pipeline.tick ⟨⟨true, ⟨5, 100, false⟩, true⟩, ⟨3, 1000, ⟨300, false, 1099, 1⟩, 0⟩⟩
        (Tick.sync false 1100)).index.getIndex = 3 ∧
      (Pipeline.tick ⟨⟨true, ⟨5, 100, false⟩, true⟩, ⟨3, 1000, ⟨300, false, 1099, 1⟩, 0⟩⟩
        (Tick.sync false 1100)).index.counter.getCount = 0 ∧
      ((Pipeline.tick ⟨⟨true, ⟨5, 100, false⟩, true⟩, ⟨3, 1000, ⟨300, false, 1099, 1⟩, 0⟩⟩
        (Tick.sync false 1100)).run
          [Tick.sync false 1101, Tick.sync true 1102, Tick.sync true 1103,
            Tick.sync true 1500]).index.counter.getCount = 0 ∧
      ((Pipeline.tick ⟨⟨true, ⟨5, 100, false⟩, true⟩, ⟨3, 1000, ⟨300, false, 1099, 1⟩, 0⟩⟩
        (Tick.sync false 1100)).run
          [Tick.sync false 1101, Tick.sync true 1102, Tick.sync true 1103,
            Tick.sync true 1500]).index.getIndex = 0 :=
  hold_never_reported_as_taps
    ⟨⟨true, ⟨5, 100, false⟩, true⟩, ⟨3, 1000, ⟨300, false, 1099, 1⟩, 0⟩⟩
    (Tick.sync false 1100)
    [Tick.sync false 1101, Tick.sync true 1102, Tick.sync true 1103, Tick.sync true 1500]
    (by decide) (by decide) (by decide)

theorem Debouncer.debounce_eq_of_state (d : Debouncer) (v : Bool) (now : Nat)
    (h : (d.debounce v now).state = d.state) : d.debounce v now = d := by
  unfold Debouncer.debounce at h ⊢
  split
  · rfl
  · rename_i hc
    rw [if_neg hc] at h
    have hv : v = d.state := h
    simp [hv] at hc

theorem Debouncer.debounce_lastChange_of_state (d : Debouncer) (v : Bool) (now : Nat)
    (h : (d.debounce v now).state ≠ d.state) : (d.debounce v now).lastChange = now := by
  unfold Debouncer.debounce at h ⊢
  split
  · rename_i hc
    rw [if_pos hc] at h
    exact absurd rfl h
  · rfl

theorem InputHandler.update_pullup (h : InputHandler) (raw : Bool) (now : Nat) :
    (h.update raw now).pullup = h.pullup := rfl

theorem InputHandler.update_bounce_of_state (h : InputHandler) (raw : Bool) (now : Nat)
    (hs : (h.update raw now).state = h.state) : (h.update raw now).bounce = h.bounce := by
  have h1 : (h.bounce.debounce raw now).state = h.bounce.state := by
    have h2 : ((h.bounce.debounce raw now).state != h.pullup) = (h.bounce.state != h.pullup) :=
      hs
    revert h2
    cases (h.bounce.debounce raw now).state <;> cases h.bounce.state <;>
      cases h.pullup <;> simp
  exact h.bounce.debounce_eq_of_state raw now h1

theorem InputHandler.update_lastChange_of_changed (h : InputHandler) (raw : Bool) (now : Nat)
    (hs : (h.update raw now).state ≠ h.state) :
    (h.update raw now).bounce.lastChange = now := by
  have h1 : (h.bounce.debounce raw now).state ≠ h.bounce.state := by
    intro h2
    apply hs
    show ((h.bounce.debounce raw now).state != h.pullup) = (h.bounce.state != h.pullup)
    rw [h2]
  exact h.bounce.debounce_lastChange_of_state raw now h1

/-- One tick of a hold: if the button was pressed with the burst not done and
is still pressed after this tick, the debouncer did not move, the burst is
still not done, and the index is `MaxCount` or 0 according to whether
`HoldTime` has elapsed since the recorded press time. -/
theorem Pipeline.hold_step (s : Pipeline) (t : Tick)
    (hs : s.pin.state = true) (hf : s.index.counter.finished = false)
    (hs1 : (s.tick t).pin.state = true) :
    (s.tick t).index.counter.finished = false ∧
      (s.tick t).pin.bounce.lastChange = s.pin.bounce.lastChange ∧
      (s.tick t).index.index =
        if s.index.HoldTime ≤ usub t.tCmd s.pin.bounce.lastChange then s.index.MaxCount
        else 0 := by
  have hst : (s.pin.update t.raw t.tPin).state = true := hs1
  have hb : (s.pin.update t.raw t.tPin).bounce = s.pin.bounce :=
    s.pin.update_bounce_of_state t.raw t.tPin (by rw [hst, hs])
  have hr : (s.pin.update t.raw t.tPin).rising = false := by
    cases hrr : (s.pin.update t.raw t.tPin).rising
    · rfl
    · have h2 := ((s.pin.update t.raw t.tPin).rising_iff.mp hrr).2
      rw [InputHandler.update_lastState, hs] at h2
      exact Bool.noConfusion h2
  have hd : (s.index.counter.check (s.pin.update t.raw t.tPin) t.tCmd).finished = false := by
    rw [PressCounter.check_finished_of_pressed _ _ _ hr hst]; exact hf
  have hheld : (s.pin.update t.raw t.tPin).heldFor t.tCmd =
      usub t.tCmd s.pin.bounce.lastChange := by
    simp only [InputHandler.heldFor, Debouncer.heldFor, hb]
  refine ⟨?_, ?_, ?_⟩
  · show (s.index.update _ _).counter.finished = false
    by_cases hh : (s.pin.update t.raw t.tPin).state = true ∧
        s.index.HoldTime ≤ (s.pin.update t.raw t.tPin).heldFor t.tCmd
    · rw [s.index.update_hold _ _ hd hh.1 hh.2]; exact hd
    · rw [s.index.update_idle _ _ hd hh]; exact hd
  · show (s.pin.update t.raw t.tPin).bounce.lastChange = _
    rw [hb]
  · show (s.index.update _ _).index = _
    by_cases hh : s.index.HoldTime ≤ usub t.tCmd s.pin.bounce.lastChange
    · rw [if_pos hh, s.index.update_hold _ _ hd hst (by rw [hheld]; exact hh)]
    · rw [if_neg hh, s.index.update_idle _ _ hd (by rw [hheld]; exact fun h => hh h.2)]

/-- The facts of `hold_step` carried along a run on which the button stays
pressed. -/
theorem Pipeline.hold_run (s : Pipeline) (ts : List Tick)
    (hs : s.pin.state = true) (hf : s.index.counter.finished = false)
    (hheld : s.heldThrough ts = true) :
    (s.run ts).pin.state = true ∧ (s.run ts).index.counter.finished = false ∧
      (s.run ts).pin.bounce.lastChange = s.pin.bounce.lastChange ∧
      (s.run ts).index.MaxCount = s.index.MaxCount ∧
      (s.run ts).index.HoldTime = s.index.HoldTime := by
  induction ts generalizing s with
  | nil => exact ⟨hs, hf, rfl, rfl, rfl⟩
  | cons t ts ih =>
    simp only [Pipeline.heldThrough, Bool.and_eq_true] at hheld
    obtain ⟨h1, h2, _⟩ := s.hold_step t hs hf hheld.1
    obtain ⟨g1, g2, g3, g4, g5⟩ := ih (s.tick t) hheld.1 h1 hheld.2
    refine ⟨g1, g2, by rw [Pipeline.run_cons, g3, h2], ?_, ?_⟩
    · rw [Pipeline.run_cons, g4]; exact s.index.update_MaxCount _ _
    · rw [Pipeline.run_cons, g5]; exact s.index.update_HoldTime _ _

theorem Pipeline.heldThrough_of_initial (s : Pipeline) (pre ts : List Tick)
    (hp : pre <+: ts) (hheld : s.heldThrough ts = true) : s.heldThrough pre = true := by
  obtain ⟨rest, rfl⟩ := hp
  rw [Pipeline.heldThrough_append, Bool.and_eq_true] at hheld
  exact hheld.1

/-- The tick on which the press is accepted: the burst is not done after it,
the debouncer records the press at this tick's clock reading, and the index
is `MaxCount` or 0 according to whether `HoldTime` has already elapsed. -/
theorem Pipeline.press_step (s : Pipeline) (t0 : Tick)
    (hrise : (s.tick t0).pin.rising = true) :
    (s.tick t0).pin.state = true ∧ (s.tick t0).index.counter.finished = false ∧
      (s.tick t0).pin.bounce.lastChange = t0.tPin ∧
      (s.tick t0).index.index =
        if s.index.HoldTime ≤ usub t0.tCmd t0.tPin then s.index.MaxCount else 0 := by
  have hr : (s.pin.update t0.raw t0.tPin).rising = true := hrise
  obtain ⟨hst, hls⟩ := (s.pin.update t0.raw t0.tPin).rising_iff.mp hr
  rw [InputHandler.update_lastState] at hls
  have hlc : (s.pin.update t0.raw t0.tPin).bounce.lastChange = t0.tPin :=
    s.pin.update_lastChange_of_changed t0.raw t0.tPin (by rw [hst, hls]; decide)
  have hd : (s.index.counter.check (s.pin.update t0.raw t0.tPin) t0.tCmd).finished = false :=
    PressCounter.check_finished_of_rising _ _ _ hr
  have hheld : (s.pin.update t0.raw t0.tPin).heldFor t0.tCmd = usub t0.tCmd t0.tPin := by
    simp only [InputHandler.heldFor, Debouncer.heldFor, hlc]
  refine ⟨hst, ?_, hlc, ?_⟩
  · show (s.index.update _ _).counter.finished = false
    by_cases hh : (s.pin.update t0.raw t0.tPin).state = true ∧
        s.index.HoldTime ≤ (s.pin.update t0.raw t0.tPin).heldFor t0.tCmd
    · rw [s.index.update_hold _ _ hd hh.1 hh.2]; exact hd
    · rw [s.index.update_idle _ _ hd hh]; exact hd
  · show (s.index.update _ _).index = _
    by_cases hh : s.index.HoldTime ≤ usub t0.tCmd t0.tPin
    · rw [if_pos hh, s.index.update_hold _ _ hd hst (by rw [hheld]; exact hh)]
    · rw [if_neg hh, s.index.update_idle _ _ hd (by rw [hheld]; exact fun h => hh h.2)]

/-- C1 as stated fails: in the scenario pipeline a press accepted at 10 ms
and held reports index 3 on the tick at 1010 ms, where the threshold is
crossed, and again on the ticks at 1011 ms and 1500 ms while still held. -/
theorem hold_index_repeats_while_held :
    (scenarioPipeline.run [Tick.sync false 10]).pin.rising = true ∧
      (scenarioPipeline.run [Tick.sync false 10]).heldThrough
        [Tick.sync false 1009, Tick.sync false 1010, Tick.sync false 1011,
          Tick.sync false 1500] = true ∧
      (scenarioPipeline.run [Tick.sync false 10, Tick.sync false 1009]).index.getIndex = 0 ∧
      (scenarioPipeline.run
        [Tick.sync false 10, Tick.sync false 1009, Tick.sync false 1010]).index.getIndex
        = 3 ∧
      (scenarioPipeline.run
        [Tick.sync false 10, Tick.sync false 1009, Tick.sync false 1010,
          Tick.sync false 1011]).index.getIndex = 3 ∧
      (scenarioPipeline.run
        [Tick.sync false 10, Tick.sync false 1009, Tick.sync false 1010,
          Tick.sync false 1011, Tick.sync false 1500]).index.getIndex = 3 := by
  decide

/-- C1 (amended). Hold overrides taps, as a level: let the press be accepted
on tick `t0` (rising edge) and the button stay pressed over the ticks `ts`,
whatever tap count had accumulated before.  On `t0` and on every tick `t` of
`ts`, `getIndex()` is `MaxCount` if at least `HoldTime` has elapsed (wrapping
subtraction) since the press was accepted and 0 otherwise.  Hence, with a
clock that has not wrapped, it is 0 on every held tick before the threshold
and `MaxCount` on the crossing tick and on every later tick of the hold. -/
theorem hold_index_level (s : Pipeline) (t0 : Tick) (ts : List Tick)
    (hrise : (s.tick t0).pin.rising = true)
    (hheld : (s.tick t0).heldThrough ts = true) :
    ((s.tick t0).index.getIndex =
        if s.index.HoldTime ≤ usub t0.tCmd t0.tPin then s.index.MaxCount else 0) ∧
      (∀ pre t, pre ++ [t] <+: ts →
        (((s.tick t0).run pre).tick t).index.getIndex =
          if s.index.HoldTime ≤ usub t.tCmd t0.tPin then s.index.MaxCount else 0) ∧
      (∀ pre t, pre ++ [t] <+: ts → t.tCmd < ULONG_MOD →
        t0.tPin + s.index.HoldTime ≤ t.tCmd →
        (((s.tick t0).run pre).tick t).index.getIndex = s.index.MaxCount) ∧
      (∀ pre t, pre ++ [t] <+: ts → t0.tPin ≤ t.tCmd →
        t.tCmd < t0.tPin + s.index.HoldTime → t.tCmd < ULONG_MOD →
        (((s.tick t0).run pre).tick t).index.getIndex = 0) := by
  obtain ⟨p1, p2, p3, p4⟩ := s.press_step t0 hrise
  have key : ∀ pre t, pre ++ [t] <+: ts →
      (((s.tick t0).run pre).tick t).index.getIndex =
        if s.index.HoldTime ≤ usub t.tCmd t0.tPin then s.index.MaxCount else 0 := by
    intro pre t hp
    have h1 := (s.tick t0).heldThrough_of_initial (pre ++ [t]) ts hp hheld
    rw [Pipeline.heldThrough_append, Bool.and_eq_true] at h1
    obtain ⟨hpre, hlast⟩ := h1
    simp only [Pipeline.heldThrough, Bool.and_true] at hlast
    obtain ⟨g1, g2, g3, g4, g5⟩ := (s.tick t0).hold_run pre p1 p2 hpre
    obtain ⟨_, _, k3⟩ := ((s.tick t0).run pre).hold_step t g1 g2 hlast
    have hM : (s.tick t0).index.MaxCount = s.index.MaxCount := s.index.update_MaxCount _ _
    have hH : (s.tick t0).index.HoldTime = s.index.HoldTime := s.index.update_HoldTime _ _
    rw [g3, g4, g5, p3, hM, hH] at k3
    exact k3
  refine ⟨p4, key, fun pre t hp hlt hge => ?_, fun pre t hp hle hlt hmod => ?_⟩
  · rw [key pre t hp, if_pos]
    rw [usub_of_le t.tCmd t0.tPin (by omega) hlt]
    omega
  · rw [key pre t hp, if_neg]
    rw [usub_of_le t.tCmd t0.tPin hle hmod]
    omega

/-- Witness for C1 (amended): the scenario pipeline, press accepted at 10 ms
and held over the ticks at 1009, 1010, 1011 and 1500 ms. -/
theorem hold_index_level_witness :
    (scenarioPipeline.tick (Tick.sync false 10)).index.getIndex = 0 ∧
      (((scenarioPipeline.tick (Tick.sync false 10)).run [Tick.sync false 1009]).tick
        (Tick.sync false 1010)).index.getIndex = 3 ∧
      (((scenarioPipeline.tick (Tick.sync false 10)).run
        [Tick.sync false 1009, Tick.sync false 1010]).tick
          (Tick.sync false 1011)).index.getIndex = 3 :=
  have h := hold_index_level scenarioPipeline (Tick.sync false 10)
    [Tick.sync false 1009, Tick.sync false 1010, Tick.sync false 1011, Tick.sync false 1500]
    (by decide) (by decide)
  ⟨h.1,
    h.2.2.1 [Tick.sync false 1009] (Tick.sync false 1010) (by decide) (by decide) (by decide),
    h.2.2.1 [Tick.sync false 1009, Tick.sync false 1010] (Tick.sync false 1011)
      (by decide) (by decide) (by decide)⟩


/-! ## Tap counting -/

theorem PressCounter.check_lastUpdate (c : PressCounter) (pin : InputHandler) (now : Nat) :
    (c.check pin now).lastUpdate =
      if 0 < (c.check pin now).count ∧ pin.state = true then now else c.lastUpdate := by
  unfold PressCounter.check
  obtain ⟨ps, f, lu, n⟩ := c
  generalize pin.rising = r
  generalize pin.state = st
  cases r <;> cases f <;> cases st <;> simp <;> split_ifs <;> simp_all

theorem PressCounter.check_finished (c : PressCounter) (pin : InputHandler) (now : Nat) :
    (c.check pin now).finished =
      if 0 < (c.check pin now).count ∧ pin.state = false ∧
          c.PressSpeed < usub now c.lastUpdate then true
      else if pin.rising = true then false else c.finished := by
  unfold PressCounter.check
  obtain ⟨ps, f, lu, n⟩ := c
  generalize pin.rising = r
  generalize pin.state = st
  cases r <;> cases f <;> cases st <;> simp <;> split_ifs <;> simp_all

theorem CounterRig.rig_run_nil (r : CounterRig) : r.run [] = r := rfl

theorem CounterRig.rig_run_cons (r : CounterRig) (t : Tick) (ts : List Tick) :
    r.run (t :: ts) = (r.tick t).run ts := rfl

theorem CounterRig.rig_run_append (r : CounterRig) (a b : List Tick) :
    r.run (a ++ b) = (r.run a).run b := by
  simp [CounterRig.run, List.foldl_append]

theorem Observer.seen_run_nil (o : Observer) : o.run [] = o := rfl

theorem Observer.seen_run_cons (o : Observer) (t : Tick) (ts : List Tick) :
    o.run (t :: ts) = (o.tick t).run ts := rfl

theorem Observer.seen_run_append (o : Observer) (a b : List Tick) :
    o.run (a ++ b) = (o.run a).run b := by
  simp [Observer.run, List.foldl_append]

theorem Observer.edges_le_tick (o : Observer) (t : Tick) : o.edges ≤ (o.tick t).edges :=
  Nat.le_add_right _ _

theorem Observer.edges_le_run (o : Observer) (ts : List Tick) :
    o.edges ≤ (o.run ts).edges := by
  induction ts generalizing o with
  | nil => exact Nat.le_refl _
  | cons t ts ih => exact Nat.le_trans (o.edges_le_tick t) (ih (o.tick t))

theorem Observer.live_append (speed : Nat) (o : Observer) (a b : List Tick) :
    o.live speed (a ++ b) = (o.live speed a && (o.run a).live speed b) := by
  induction a generalizing o with
  | nil => simp [Observer.live, Observer.seen_run_nil]
  | cons t ts ih =>
    rw [List.cons_append]
    simp only [Observer.live, Observer.seen_run_cons, ih, Bool.and_assoc]

/-- A tick that leaves the button released shows no rising edge and leaves
the onlooker's edge count and last pressed time as they were. -/
theorem Observer.tick_released (o : Observer) (t : Tick)
    (hs : (o.pin.update t.raw t.tPin).state = false) :
    (o.pin.update t.raw t.tPin).rising = false ∧ (o.tick t).edges = o.edges ∧
      (o.tick t).lastPressed = o.lastPressed := by
  have hr : (o.pin.update t.raw t.tPin).rising = false := by
    cases hrr : (o.pin.update t.raw t.tPin).rising
    · rfl
    · rw [(o.pin.update t.raw t.tPin).state_of_rising hrr] at hs
      exact Bool.noConfusion hs
  refine ⟨hr, ?_, ?_⟩
  · show o.edges + (if (o.pin.update t.raw t.tPin).rising = true then 1 else 0) = o.edges
    rw [hr]; rfl
  · show (if (o.pin.update t.raw t.tPin).state = true then t.tCmd else o.lastPressed) = _
    rw [hs]; rfl

/-- One tick on which the counter is not timed out keeps it in step with the
onlooker, provided the 8-bit count has room for the edges seen. -/
theorem CounterRig.tracks_tick (r : CounterRig) (o : Observer) (t : Tick)
    (hT : r.Tracks o)
    (hlive : ((o.tick t).edges == 0 || !o.timedOut r.counter.PressSpeed t) = true)
    (hroom : (o.tick t).edges < UINT8_MOD) :
    (r.tick t).Tracks (o.tick t) ∧ (r.tick t).counter.PressSpeed = r.counter.PressSpeed := by
  obtain ⟨hp, hf, hc, hl⟩ := hT
  have hpin : (r.tick t).pin = (o.tick t).pin := by
    show r.pin.update t.raw t.tPin = o.pin.update t.raw t.tPin
    rw [hp]
  have hcnt : (r.tick t).counter.count = (o.tick t).edges := by
    show (r.counter.check (r.pin.update t.raw t.tPin) t.tCmd).count = _
    rw [PressCounter.check_count, hf, hp, hc]
    have hroom1 : o.edges + (if (o.pin.update t.raw t.tPin).rising = true then 1 else 0)
        < UINT8_MOD := hroom
    show _ = o.edges + (if (o.pin.update t.raw t.tPin).rising = true then 1 else 0)
    split
    · rename_i hr
      rw [if_pos hr] at hroom1
      simp only [Bool.false_eq_true, if_false]
      exact Nat.mod_eq_of_lt hroom1
    · rfl
  have hlow : (o.pin.update t.raw t.tPin).state = false →
      (o.tick t).edges = o.edges ∧ (o.tick t).lastPressed = o.lastPressed :=
    fun hs => (o.tick_released t hs).2
  have hfin : (r.tick t).counter.finished = false := by
    show (r.counter.check (r.pin.update t.raw t.tPin) t.tCmd).finished = false
    have hno : ¬ (0 < (r.counter.check (r.pin.update t.raw t.tPin) t.tCmd).count ∧
        (r.pin.update t.raw t.tPin).state = false ∧
        r.counter.PressSpeed < usub t.tCmd r.counter.lastUpdate) := by
      rintro ⟨h1, h2, h3⟩
      have h1a : 0 < (o.tick t).edges := by rw [← hcnt]; exact h1
      rw [hp] at h2
      obtain ⟨he, hlp⟩ := hlow h2
      have hlu : r.counter.lastUpdate = o.lastPressed := hl (by rw [← he]; exact h1a)
      have hst : (o.tick t).pin.state = false := h2
      have hne : ((o.tick t).edges == 0) = false := by
        simp only [beq_eq_false_iff_ne, ne_eq]; omega
      rw [hne, Bool.false_or] at hlive
      simp only [Observer.timedOut, hst, hlp, Bool.not_false, Bool.true_and,
        Bool.not_eq_true', decide_eq_false_iff_not] at hlive
      rw [hlu] at h3
      exact hlive h3
    rw [PressCounter.check_finished, if_neg hno, hf]
    split <;> rfl
  have hlast : 0 < (o.tick t).edges →
      (r.tick t).counter.lastUpdate = (o.tick t).lastPressed := by
    intro hpos
    show (r.counter.check (r.pin.update t.raw t.tPin) t.tCmd).lastUpdate = _
    have hc1 : 0 < (r.counter.check (r.pin.update t.raw t.tPin) t.tCmd).count := by
      have := hcnt
      rw [← hcnt] at hpos
      exact hpos
    rw [PressCounter.check_lastUpdate, hp]
    cases hs : (o.pin.update t.raw t.tPin).state
    · obtain ⟨he, hlp⟩ := hlow hs
      rw [if_neg (by simp), hlp]
      exact hl (by rw [← he]; exact hpos)
    · rw [hp] at hc1
      rw [if_pos ⟨hc1, rfl⟩]
      show t.tCmd = (if (o.pin.update t.raw t.tPin).state = true then t.tCmd else o.lastPressed)
      rw [hs]; rfl
  exact ⟨⟨hpin, hfin, hcnt, hlast⟩, PressCounter.check_PressSpeed _ _ _⟩

/-- A run on which the counter is never timed out keeps it in step with the
onlooker. -/
theorem CounterRig.tracks_run (r : CounterRig) (o : Observer) (ts : List Tick)
    (hT : r.Tracks o) (hlive : o.live r.counter.PressSpeed ts = true)
    (hroom : (o.run ts).edges < UINT8_MOD) :
    (r.run ts).Tracks (o.run ts) ∧ (r.run ts).counter.PressSpeed = r.counter.PressSpeed := by
  induction ts generalizing r o with
  | nil => exact ⟨hT, rfl⟩
  | cons t ts ih =>
    simp only [Observer.live, Bool.and_eq_true] at hlive
    rw [Observer.seen_run_cons] at hroom
    have hroom1 : (o.tick t).edges < UINT8_MOD :=
      Nat.lt_of_le_of_lt ((o.tick t).edges_le_run ts) hroom
    obtain ⟨hT1, hps⟩ := r.tracks_tick o t hT hlive.1 hroom1
    have h := ih (r.tick t) (o.tick t) hT1 (by rw [hps]; exact hlive.2) hroom
    rw [hps] at h
    exact h

/-- C3 as stated fails.  (a) The count is 8 bits wide: after 256 taps of the
scenario rig (10 ms pressed, 10 ms released, each release far shorter than
the 300 ms timeout) and 880 ms of silence, `getCount()` is 0 and `isDone()`
is false.  (b) The timeout is strict and runs from the last pressed tick:
one tap whose last pressed tick and release tick both read 20 ms has been
released for exactly 300 ms at 320 ms, yet `isDone()` is still false there. -/
theorem tap_counting_wraps_and_is_strict :
    (((Observer.start scenarioRig.pin 0).run
          (tapTrain 256 10 ++ [Tick.sync true 6000])).edges = 256 ∧
        (Observer.start scenarioRig.pin 0).live 300 (tapTrain 256 10) = true ∧
        (scenarioRig.run (tapTrain 256 10 ++ [Tick.sync true 6000])).pin.state = false ∧
        (scenarioRig.run (tapTrain 256 10 ++ [Tick.sync true 6000])).pin.heldFor 6000
          = 880 ∧
        (scenarioRig.run (tapTrain 256 10 ++ [Tick.sync true 6000])).counter.getCount
          = 0 ∧
        (scenarioRig.run (tapTrain 256 10 ++ [Tick.sync true 6000])).counter.isDone
          = false) ∧
      (((Observer.start scenarioRig.pin 0).run
          [Tick.sync false 10, Tick.sync false 20, Tick.sync true 20,
            Tick.sync true 320]).edges = 1 ∧
        (scenarioRig.run
          [Tick.sync false 10, Tick.sync false 20, Tick.sync true 20]).pin.heldFor 20 = 0 ∧
        (scenarioRig.run
          [Tick.sync false 10, Tick.sync false 20, Tick.sync true 20,
            Tick.sync true 320]).pin.state = false ∧
        (scenarioRig.run
          [Tick.sync false 10, Tick.sync false 20, Tick.sync true 20,
            Tick.sync true 320]).pin.heldFor 320 = 300 ∧
        (scenarioRig.run
          [Tick.sync false 10, Tick.sync false 20, Tick.sync true 20,
            Tick.sync true 320]).counter.isDone = false) := by
  decide!

/-- C3 (amended). Tap counting: take a freshly constructed `PressCounter`
with timeout `speed`, ticked in pipeline order on any `InputHandler`, and
1 ≤ N ≤ 255.  If the run `ts ++ [tf]` shows N rising edges, no tick of `ts`
after the first edge finds the button released with more than `speed`
elapsed since the last pressed tick, and `tf` is the first tick that does,
then after `tf` `getCount() == N` and `isDone() == true`, and `isDone()` was
false after every earlier tick. -/
theorem tap_counting (pin0 : InputHandler) (speed junk d N : Nat) (ts : List Tick)
    (tf : Tick) (hN1 : 1 ≤ N) (hN : N ≤ 255)
    (hedges : ((Observer.start pin0 d).run (ts ++ [tf])).edges = N)
    (hlive : (Observer.start pin0 d).live speed ts = true)
    (hfinal : ((Observer.start pin0 d).run ts).timedOut speed tf = true) :
    ((CounterRig.mk pin0 (PressCounter.new speed junk)).run (ts ++ [tf])).counter.getCount
        = N ∧
      ((CounterRig.mk pin0 (PressCounter.new speed junk)).run (ts ++ [tf])).counter.isDone
        = true ∧
      ∀ pre, pre <+: ts →
        ((CounterRig.mk pin0 (PressCounter.new speed junk)).run pre).counter.isDone
          = false := by
  have hT0 : (CounterRig.mk pin0 (PressCounter.new speed junk)).Tracks
      (Observer.start pin0 d) :=
    ⟨rfl, rfl, rfl, fun h => absurd h (Nat.lt_irrefl 0)⟩
  have hroom : ((Observer.start pin0 d).run ts).edges < UINT8_MOD := by
    have h1 := ((Observer.start pin0 d).run ts).edges_le_run [tf]
    rw [← Observer.seen_run_append, hedges] at h1
    simp only [UINT8_MOD]; omega
  have hpre : ∀ pre, pre <+: ts →
      ((CounterRig.mk pin0 (PressCounter.new speed junk)).run pre).Tracks
          ((Observer.start pin0 d).run pre) ∧
        ((CounterRig.mk pin0 (PressCounter.new speed junk)).run pre).counter.PressSpeed
          = speed := by
    rintro pre ⟨rest, rfl⟩
    rw [Observer.live_append, Bool.and_eq_true] at hlive
    have h1 := ((Observer.start pin0 d).run pre).edges_le_run rest
    rw [← Observer.seen_run_append] at h1
    exact CounterRig.tracks_run _ _ pre hT0 hlive.1 (Nat.lt_of_le_of_lt h1 hroom)
  obtain ⟨⟨hp, hf, hc, hl⟩, hps⟩ := hpre ts (List.prefix_refl ts)
  simp only [Observer.timedOut, Bool.and_eq_true, Bool.not_eq_true',
    decide_eq_true_eq] at hfinal
  obtain ⟨hst, hto⟩ := hfinal
  have hst1 : (((Observer.start pin0 d).run ts).pin.update tf.raw tf.tPin).state = false :=
    hst
  obtain ⟨hr, he, hlp⟩ := ((Observer.start pin0 d).run ts).tick_released tf hst1
  rw [Observer.seen_run_append] at hedges
  have hedges1 : (((Observer.start pin0 d).run ts).tick tf).edges = N := hedges
  rw [he] at hedges1
  rw [hlp] at hto
  rw [hedges1] at hc hl
  have hlu := hl (by omega)
  have hcount : (((CounterRig.mk pin0 (PressCounter.new speed junk)).run ts).tick
      tf).counter.count = N := by
    show (PressCounter.check _ _ _).count = N
    rw [PressCounter.check_count, hp, hr, hc]
    rfl
  refine ⟨?_, ?_, fun pre hp => (hpre pre hp).1.2.1⟩
  · rw [CounterRig.rig_run_append]
    exact hcount
  · rw [CounterRig.rig_run_append]
    show (PressCounter.check _ _ _).finished = true
    have hcount1 : (PressCounter.check
        ((CounterRig.mk pin0 (PressCounter.new speed junk)).run ts).counter
        (((CounterRig.mk pin0 (PressCounter.new speed junk)).run ts).pin.update
          tf.raw tf.tPin) tf.tCmd).count = N := hcount
    rw [PressCounter.check_finished, hcount1, hp, hlu, hps]
    rw [if_pos ⟨by omega, hst1, hto⟩]

/-- Witness for C3 (amended): two taps on the scenario rig, pressed at 10 ms
and from 200 ms to 249 ms; the tick at 549 ms is not yet timed out and the
tick at 550 ms is the first one more than 300 ms after the last pressed
tick. -/
theorem tap_counting_witness :
    ((CounterRig.mk (InputHandler.new 5 true) (PressCounter.new 300 0)).run
        ([Tick.sync false 10, Tick.sync true 100, Tick.sync false 200, Tick.sync false 249,
          Tick.sync true 250, Tick.sync true 400, Tick.sync true 549]
          ++ [Tick.sync true 550])).counter.getCount = 2 ∧
      ((CounterRig.mk (InputHandler.new 5 true) (PressCounter.new 300 0)).run
        ([Tick.sync false 10, Tick.sync true 100, Tick.sync false 200, Tick.sync false 249,
          Tick.sync true 250, Tick.sync true 400, Tick.sync true 549]
          ++ [Tick.sync true 550])).counter.isDone = true ∧
      ∀ pre, pre <+: [Tick.sync false 10, Tick.sync true 100, Tick.sync false 200,
          Tick.sync false 249, Tick.sync true 250, Tick.sync true 400,
          Tick.sync true 549] →
        ((CounterRig.mk (InputHandler.new 5 true) (PressCounter.new 300 0)).run
          pre).counter.isDone = false :=
  tap_counting (InputHandler.new 5 true) 300 0 0 2
    [Tick.sync false 10, Tick.sync true 100, Tick.sync false 200, Tick.sync false 249,
      Tick.sync true 250, Tick.sync true 400, Tick.sync true 549]
    (Tick.sync true 550) (by decide) (by decide) (by decide) (by decide) (by decide)

/-! ## Wrapping durations -/

theorem usub_eq_emod (a b : Nat) :
    (usub a b : Int) = ((a : Int) - (b : Int)) % (ULONG_MOD : Int) := by
  simp only [usub, ULONG_MOD]
  omega

theorem usub_mod_mod (T0 T1 : Nat) (hle : T0 ≤ T1) :
    usub (T1 % ULONG_MOD) (T0 % ULONG_MOD) = (T1 - T0) % ULONG_MOD := by
  simp only [usub, ULONG_MOD]
  omega

/-- C12. Wraparound-safe durations: for clock readings `now` and `lastChange`
of the 32-bit wrapping clock, `heldFor()` is `(now - lastChange) mod 2^32`;
if the readings were taken at true times `T0 ≤ T1` (milliseconds since boot,
however often the clock has wrapped) it is `(T1 - T0) mod 2^32`, which is the
true elapsed time whenever that is less than 2^32. -/
theorem heldFor_wraparound (d : Debouncer) (T0 T1 : Nat) (hle : T0 ≤ T1)
    (hrec : d.lastChange = T0 % ULONG_MOD) :
    (∀ now : Nat,
        (d.heldFor now : Int) = ((now : Int) - (d.lastChange : Int)) % (ULONG_MOD : Int)) ∧
      d.heldFor (T1 % ULONG_MOD) = (T1 - T0) % ULONG_MOD ∧
      (T1 - T0 < ULONG_MOD → d.heldFor (T1 % ULONG_MOD) = T1 - T0) := by
  refine ⟨fun now => usub_eq_emod now d.lastChange, ?_, fun hlt => ?_⟩
  · show usub _ d.lastChange = _
    rw [hrec]; exact usub_mod_mod T0 T1 hle
  · show usub _ d.lastChange = _
    rw [hrec, usub_mod_mod T0 T1 hle]; exact Nat.mod_eq_of_lt hlt

/-- Witness for C12: the press was recorded 6 ms before the clock wrapped and
is read 10 ms after the wrap: `heldFor()` is 16 ms. -/
theorem heldFor_wraparound_witness :
    (∀ now : Nat,
        (Debouncer.heldFor ⟨5, 4294967290, true⟩ now : Int)
          = ((now : Int) - ((4294967290 : Nat) : Int)) % (ULONG_MOD : Int)) ∧
      Debouncer.heldFor ⟨5, 4294967290, true⟩ (4294967306 % ULONG_MOD)
        = (4294967306 - 4294967290) % ULONG_MOD ∧
      (4294967306 - 4294967290 < ULONG_MOD →
        Debouncer.heldFor ⟨5, 4294967290, true⟩ (4294967306 % ULONG_MOD)
          = 4294967306 - 4294967290) :=
  heldFor_wraparound ⟨5, 4294967290, true⟩ 4294967290 4294967306 (by decide) (by decide)

/-! ## The step of `check()` -/

/-- C13. The step of `PressCounter.check()`: on a rising edge the count is
cleared if the burst was finished, then incremented (8-bit), and `finished`
is false afterwards; then, if the count is non-zero, a pressed button sets
the timer to the clock reading, and a released button with more than
`PressSpeed` elapsed on the timer sets `finished`; in every other case
(count 0 and no rising edge, or released with at most `PressSpeed` elapsed)
nothing changes. -/
theorem check_step (c : PressCounter) (pin : InputHandler) (now : Nat) :
    (pin.rising = true →
        (c.check pin now).count = ((if c.finished = true then 0 else c.count) + 1) % UINT8_MOD ∧
          (c.check pin now).finished = false ∧
          (c.check pin now).lastUpdate =
            (if 0 < (c.check pin now).count then now else c.lastUpdate)) ∧
      (pin.rising = false → 0 < c.count → pin.state = true →
        c.check pin now = { c with lastUpdate := now }) ∧
      (pin.rising = false → 0 < c.count → pin.state = false →
        c.PressSpeed < usub now c.lastUpdate →
        c.check pin now = { c with finished := true }) ∧
      (pin.rising = false →
        c.count = 0 ∨ (pin.state = false ∧ usub now c.lastUpdate ≤ c.PressSpeed) →
        c.check pin now = c) := by
  refine ⟨fun hr => ?_, fun hr hc hs => ?_, fun hr hc hs hto => ?_, fun hr h => ?_⟩
  · have hs : pin.state = true := pin.state_of_rising hr
    refine ⟨?_, PressCounter.check_finished_of_rising c pin now hr, ?_⟩
    · rw [PressCounter.check_count, if_pos hr]
    · rw [PressCounter.check_lastUpdate]
      simp [hs]
  · have hc1 : c.count ≠ 0 := by omega
    simp [PressCounter.check, hr, hs, hc, hc1]
  · have hc1 : c.count ≠ 0 := by omega
    simp [PressCounter.check, hr, hs, hc, hc1, hto]
  · rcases h with h0 | ⟨hs, hle⟩
    · exact c.check_idle pin now hr h0
    · have : ¬ c.PressSpeed < usub now c.lastUpdate := by omega
      simp [PressCounter.check, hr, hs, this]

/-- Witness for C13: the four cases at concrete inputs (a rising edge on a
finished burst of 2 taps; a held button; a release timed out at 301 ms; a
release not yet timed out at 300 ms). -/
theorem check_step_witness :
    ((PressCounter.check ⟨300, true, 50, 2⟩ ⟨true, ⟨5, 400, false⟩, false⟩ 400).count = 1 ∧
        (PressCounter.check ⟨300, true, 50, 2⟩ ⟨true, ⟨5, 400, false⟩, false⟩ 400).finished
          = false ∧
        (PressCounter.check ⟨300, true, 50, 2⟩ ⟨true, ⟨5, 400, false⟩, false⟩ 400).lastUpdate
          = 400) ∧
      (PressCounter.check ⟨300, false, 400, 1⟩ ⟨true, ⟨5, 400, false⟩, true⟩ 450
        = ⟨300, false, 450, 1⟩) ∧
      (PressCounter.check ⟨300, false, 450, 1⟩ ⟨true, ⟨5, 460, true⟩, false⟩ 751
        = ⟨300, true, 450, 1⟩) ∧
      (PressCounter.check ⟨300, false, 450, 1⟩ ⟨true, ⟨5, 460, true⟩, false⟩ 750
        = ⟨300, false, 450, 1⟩) :=
  ⟨(check_step ⟨300, true, 50, 2⟩ ⟨true, ⟨5, 400, false⟩, false⟩ 400).1 (by decide),
    (check_step ⟨300, false, 400, 1⟩ ⟨true, ⟨5, 400, false⟩, true⟩ 450).2.1
      (by decide) (by decide) (by decide),
    (check_step ⟨300, false, 450, 1⟩ ⟨true, ⟨5, 460, true⟩, false⟩ 751).2.2.1
      (by decide) (by decide) (by decide) (by decide),
    (check_step ⟨300, false, 450, 1⟩ ⟨true, ⟨5, 460, true⟩, false⟩ 750).2.2.2
      (by decide) (Or.inr ⟨by decide, by decide⟩)⟩

/-! ## What the debouncer does not check -/

/-- C15 as stated fails: with a 5 ms window and the last change at 0 ms, the
sample at 100 ms equals the state (`HIGH`), and the differing sample at
101 ms is accepted at once, although the raw input differed from the state
for less than the window. -/
theorem debounce_accepts_without_settling :
    (Debouncer.feed ⟨5, 0, true⟩ [(true, 100)]).getState = true ∧
      (Debouncer.feed ⟨5, 0, true⟩ [(true, 100), (false, 101)]).getState = false ∧
      (Debouncer.feed ⟨5, 0, true⟩ [(true, 100), (false, 101)]).lastChange = 101 ∧
      101 - 100 ≤ (Debouncer.feed ⟨5, 0, true⟩ [(true, 100)]).BounceTime := by
  decide

/-- C15 (amended). Debouncer state invariant: after any sequence of
`debounce(sample)` calls, a call on which `getState()` changes has a sample
different from the previous state and is made strictly more than
`BounceTime` after the last accepted change; the new state is the sample and
the change is recorded at this call's clock reading.  The samples of the
calls in between are not examined. -/
theorem debounce_change_needs_window (d : Debouncer) (calls : List (Bool × Nat))
    (s : Bool) (now : Nat)
    (hchg : ((d.feed calls).debounce s now).getState ≠ (d.feed calls).getState) :
    s ≠ (d.feed calls).getState ∧
      (d.feed calls).BounceTime < (d.feed calls).heldFor now ∧
      ((d.feed calls).debounce s now).getState = s ∧
      ((d.feed calls).debounce s now).lastChange = now := by
  generalize d.feed calls = e at hchg ⊢
  have hne : s ≠ e.state := by
    intro h
    rw [h] at hchg
    exact hchg (by rw [e.debounce_same now])
  have hwin : e.BounceTime < usub now e.lastChange := by
    by_contra hcon
    exact hchg (by rw [e.debounce_of_bouncing s now (Nat.le_of_not_lt hcon)])
  rw [e.debounce_accept s now hne hwin]
  exact ⟨hne, hwin, rfl, rfl⟩

/-- Witness for C15 (amended): the change accepted at 101 ms in the run above
comes 101 ms after the last accepted change. -/
theorem debounce_change_needs_window_witness :
    false ≠ (Debouncer.feed ⟨5, 0, true⟩ [(true, 100)]).getState ∧
      (Debouncer.feed ⟨5, 0, true⟩ [(true, 100)]).BounceTime
        < (Debouncer.feed ⟨5, 0, true⟩ [(true, 100)]).heldFor 101 ∧
      ((Debouncer.feed ⟨5, 0, true⟩ [(true, 100)]).debounce false 101).getState = false ∧
      ((Debouncer.feed ⟨5, 0, true⟩ [(true, 100)]).debounce false 101).lastChange = 101 :=
  debounce_change_needs_window ⟨5, 0, true⟩ [(true, 100)] false 101 (by decide)

/-! ## `reset()` -/

theorem usub_usub_cancel (now ps : Nat) (hps : ps < ULONG_MOD) :
    usub now (usub now ps) = ps := by
  simp only [usub, ULONG_MOD] at *
  omega

/-- C20. `PressCounter.reset()` clears the count and re-arms the timeout
baseline without touching the done flag: afterwards `getCount()` is 0, the
time elapsed on the timer at the same clock reading is exactly `PressSpeed`
(so not yet more than `PressSpeed`), and `isDone()` is what it was. -/
theorem reset_rearms (c : PressCounter) (now : Nat) (hps : c.PressSpeed < ULONG_MOD) :
    (c.reset now).getCount = 0 ∧
      usub now (c.reset now).lastUpdate = c.PressSpeed ∧
      ¬ (usub now (c.reset now).lastUpdate > (c.reset now).PressSpeed) ∧
      (c.reset now).isDone = c.isDone := by
  have h : usub now (c.reset now).lastUpdate = c.PressSpeed :=
    usub_usub_cancel now c.PressSpeed hps
  refine ⟨rfl, h, ?_, rfl⟩
  rw [h]
  exact Nat.lt_irrefl _

/-- Witness for C20: a reset at 100 ms with a 300 ms timeout puts the
baseline 300 ms back, across the wrap of the clock. -/
theorem reset_rearms_witness :
    (PressCounter.reset ⟨300, true, 7, 2⟩ 100).getCount = 0 ∧
      usub 100 (PressCounter.reset ⟨300, true, 7, 2⟩ 100).lastUpdate = 300 ∧
      ¬ (usub 100 (PressCounter.reset ⟨300, true, 7, 2⟩ 100).lastUpdate
          > (PressCounter.reset ⟨300, true, 7, 2⟩ 100).PressSpeed) ∧
      (PressCounter.reset ⟨300, true, 7, 2⟩ 100).isDone = true :=
  reset_rearms ⟨300, true, 7, 2⟩ 100 (by decide)

/-! ## Holding never times out the counter -/

theorem PressCounter.check_not_done_of_pressed (c : PressCounter) (h : InputHandler)
    (raw : Bool) (tPin now : Nat) (hinv : h.state = true → c.finished = false)
    (hs : (h.update raw tPin).state = true) :
    (c.check (h.update raw tPin) now).finished = false := by
  cases hr : (h.update raw tPin).rising
  · rw [PressCounter.check_finished_of_pressed c _ now hr hs]
    apply hinv
    cases hst : h.state
    · have : (h.update raw tPin).rising = true :=
        (h.update raw tPin).rising_iff.mpr ⟨hs, by rw [InputHandler.update_lastState, hst]⟩
      rw [hr] at this
      exact Bool.noConfusion this
    · rfl
  · exact PressCounter.check_finished_of_rising c _ now hr

theorem CommandIndex.update_finished (c : CommandIndex) (pin : InputHandler) (now : Nat) :
    (c.update pin now).counter.finished = (c.counter.check pin now).finished := by
  simp only [CommandIndex.update, CommandIndex.setIndex]
  split
  · rfl
  · split <;> rfl

/-- Along a pipeline run, a pressed button goes with a burst that is not
done. -/
theorem Pipeline.pressed_not_done (s : Pipeline) (ts : List Tick)
    (hinv : s.pin.state = true → s.index.counter.finished = false) :
    (s.run ts).pin.state = true → (s.run ts).index.counter.finished = false := by
  induction ts generalizing s with
  | nil => exact hinv
  | cons t ts ih =>
    apply ih (s.tick t)
    intro hs
    show (s.index.update _ _).counter.finished = false
    rw [CommandIndex.update_finished]
    exact PressCounter.check_not_done_of_pressed _ _ _ _ _ hinv hs

/-- Along a run of a counter on its own, a pressed button goes with a burst
that is not done. -/
theorem CounterRig.rig_pressed_not_done (r : CounterRig) (ts : List Tick)
    (hinv : r.pin.state = true → r.counter.finished = false) :
    (r.run ts).pin.state = true → (r.run ts).counter.finished = false := by
  induction ts generalizing r with
  | nil => exact hinv
  | cons t ts ih =>
    apply ih (r.tick t)
    intro hs
    exact PressCounter.check_not_done_of_pressed _ _ _ _ _ hinv hs

/-- C14. Holding never times out the counter: in every run from construction
ticked in pipeline order, with or without `setIndex()` after `check()`, on
every tick where the button is pressed `isDone()` is false after `check()`;
so the burst-done branch and the hold condition of `setIndex()` never hold
on the same tick. -/
theorem holding_never_times_out (DebounceTime : Nat) (up : Bool)
    (rmax rspeed t_hold junk : Nat) (ts : List Tick) (t : Tick) :
    ((((CounterRig.mk (InputHandler.new DebounceTime up)
            (PressCounter.new rspeed junk)).run ts).tick t).pin.state = true →
        (((CounterRig.mk (InputHandler.new DebounceTime up)
            (PressCounter.new rspeed junk)).run ts).tick t).counter.isDone = false) ∧
      ((((Pipeline.new DebounceTime up rmax rspeed t_hold junk).run ts).tick t).pin.state
          = true →
        (((Pipeline.new DebounceTime up rmax rspeed t_hold junk).run
            ts).index.counter.check
          (((Pipeline.new DebounceTime up rmax rspeed t_hold junk).run ts).pin.update
            t.raw t.tPin) t.tCmd).isDone = false) ∧
      ¬ (((Pipeline.new DebounceTime up rmax rspeed t_hold junk).run ts).burstReported t
            = true ∧
          ((((Pipeline.new DebounceTime up rmax rspeed t_hold junk).run ts).tick t).pin.state
              = true ∧
            t_hold ≤ (((Pipeline.new DebounceTime up rmax rspeed t_hold junk).run
              ts).tick t).pin.heldFor t.tCmd)) := by
  have hP := (Pipeline.new DebounceTime up rmax rspeed t_hold junk).pressed_not_done ts
    (fun _ => rfl)
  have hR := (CounterRig.mk (InputHandler.new DebounceTime up)
    (PressCounter.new rspeed junk)).rig_pressed_not_done (ts ++ [t]) (fun _ => rfl)
  rw [CounterRig.rig_run_append] at hR
  have hcheck : (((Pipeline.new DebounceTime up rmax rspeed t_hold junk).run ts).tick
        t).pin.state = true →
      (((Pipeline.new DebounceTime up rmax rspeed t_hold junk).run ts).index.counter.check
        (((Pipeline.new DebounceTime up rmax rspeed t_hold junk).run ts).pin.update
          t.raw t.tPin) t.tCmd).finished = false :=
    fun hs => PressCounter.check_not_done_of_pressed _ _ _ _ _ hP hs
  refine ⟨hR, hcheck, ?_⟩
  rintro ⟨hb, hs, _⟩
  have hb1 : (((Pipeline.new DebounceTime up rmax rspeed t_hold junk).run
      ts).index.counter.check
        (((Pipeline.new DebounceTime up rmax rspeed t_hold junk).run ts).pin.update
          t.raw t.tPin) t.tCmd).finished = true := hb
  rw [hcheck hs] at hb1
  exact Bool.noConfusion hb1

/-- Witness for C14: in the scenario pipeline, a tap and then a second press
held past the 300 ms tap timeout; on the pressed tick at 700 ms the burst is
not done. -/
theorem holding_never_times_out_witness :
    (((Pipeline.new 5 true 3 300 1000 0).run
        [Tick.sync false 10, Tick.sync true 100, Tick.sync false 200,
          Tick.sync false 300]).index.counter.check
      (((Pipeline.new 5 true 3 300 1000 0).run
        [Tick.sync false 10, Tick.sync true 100, Tick.sync false 200,
          Tick.sync false 300]).pin.update false 700) 700).isDone = false :=
  (holding_never_times_out 5 true 3 300 1000 0
    [Tick.sync false 10, Tick.sync true 100, Tick.sync false 200, Tick.sync false 300]
    (Tick.sync false 700)).2.1 (by decide)

/-! ## MediaCommands -/

theorem MediaCommands.copy_length (cmds tbl : List Nat) (n : Nat) :
    ((List.range n).foldl (fun t i => t.set i (cmds.getD i 0)) tbl).length = tbl.length := by
  induction n with
  | zero => rfl
  | succ n ih =>
    rw [List.range_succ, List.foldl_append]
    simp only [List.foldl_cons, List.foldl_nil, List.length_set]
    exact ih

theorem MediaCommands.copy_getElem? (cmds tbl : List Nat) (n j : Nat) :
    ((List.range n).foldl (fun t i => t.set i (cmds.getD i 0)) tbl)[j]? =
      if j < n ∧ j < tbl.length then some (cmds.getD j 0) else tbl[j]? := by
  induction n with
  | zero => simp
  | succ n ih =>
    rw [List.range_succ, List.foldl_append]
    simp only [List.foldl_cons, List.foldl_nil, List.getElem?_set,
      MediaCommands.copy_length, ih]
    by_cases hj : n = j
    · subst hj
      by_cases hl : n < tbl.length
      · simp [hl]
      · have : tbl[n]? = none := List.getElem?_eq_none (by omega)
        simp [hl, this]
    · by_cases h1 : j < n
      · have h2 : j < n + 1 := by omega
        simp [hj, h1, h2]
      · have h2 : ¬ j < n + 1 := by omega
        simp [hj, h1, h2]

/-- C16. `setCommands` with a table of `cmds.length` entries: if that is less
than `max_ncmds` the stored table is unchanged; otherwise the stored table
(an array of `max_ncmds` entries) becomes the first `max_ncmds` entries of
`cmds`, in order. -/
theorem setCommands_table (m : MediaCommands) (cmds : List Nat)
    (hsize : m.commands.length = m.max_ncmds) :
    (cmds.length < m.max_ncmds → m.setCommands cmds = m) ∧
      (¬ cmds.length < m.max_ncmds →
        (m.setCommands cmds).commands = cmds.take m.max_ncmds) := by
  refine ⟨fun h => ?_, fun h => ?_⟩
  · simp [MediaCommands.setCommands, h]
  · simp only [MediaCommands.setCommands, if_neg h]
    apply List.ext_getElem?
    intro j
    rw [MediaCommands.copy_getElem?, List.getElem?_take, hsize]
    by_cases hj : j < m.max_ncmds
    · have hjc : j < cmds.length := by omega
      simp [hj, List.getD_eq_getElem?_getD, List.getElem?_eq_getElem hjc]
    · have : m.commands[j]? = none := List.getElem?_eq_none (by omega)
      simp [hj, this]

/-- Witness for C16: a table of 3 commands is left alone by 2 entries and
takes the first 3 of 4 entries. -/
theorem setCommands_table_witness :
    (MediaCommands.setCommands (MediaCommands.new 3 3 300 1000 0 205) [1, 2]
        = MediaCommands.new 3 3 300 1000 0 205) ∧
      (MediaCommands.setCommands (MediaCommands.new 3 3 300 1000 0 205)
        [1, 2, 3, 4]).commands = [1, 2, 3] :=
  ⟨(setCommands_table (MediaCommands.new 3 3 300 1000 0 205) [1, 2] (by decide)).1
      (by decide),
    (setCommands_table (MediaCommands.new 3 3 300 1000 0 205) [1, 2, 3, 4]
      (by decide)).2 (by decide)⟩

theorem MediaCommands.readCommand_pred (m : MediaCommands) (n : Nat) (h0 : n ≠ 0)
    (hle : n ≤ m.max_ncmds) :
    m.readCommand ((n : Int) - 1) = some (m.commands.getD (n - 1) 0) := by
  have h1 : (0 : Int) ≤ (n : Int) - 1 ∧ (n : Int) - 1 < (m.max_ncmds : Int) := by omega
  have h2 : ((n : Int) - 1).toNat = n - 1 := by omega
  simp only [MediaCommands.readCommand, h1, h2, and_self, if_true]

theorem HidEvent.replay_append (held : Option Nat) (a b : List HidEvent) :
    HidEvent.replay held (a ++ b) =
      (HidEvent.replay held a).bind (fun h => HidEvent.replay h b) := by
  induction a generalizing held with
  | nil => simp [HidEvent.replay]
  | cons e es ih =>
    cases e with
    | press key =>
      cases held with
      | none => exact ih (some key)
      | some h => rfl
    | release key =>
      cases held with
      | none => rfl
      | some h =>
        show (if h = key then HidEvent.replay none (es ++ b) else none) =
          (if h = key then HidEvent.replay none es else none).bind
            (fun h => HidEvent.replay h b)
        split
        · exact ih none
        · rfl

theorem HidEvent.replay_nil (held : Option Nat) : HidEvent.replay held [] = some held := by
  cases held <;> rfl

/-- One `run()` from a state with `lastCommand ≤ max_ncmds`: it makes no
out-of-bounds access, keeps the table, leaves `lastCommand ≤ max_ncmds`, and
its `Consumer` calls take the held key from the one of the old `lastCommand`
to the one of the new. -/
theorem MediaCommands.run_spec (m : MediaCommands) (pin : InputHandler) (now : Nat)
    (hle : m.lastCommand ≤ m.max_ncmds) :
    ∃ m1 evs, m.run pin now = some (m1, evs) ∧ m1.max_ncmds = m.max_ncmds ∧
      m1.commands = m.commands ∧ m1.lastCommand ≤ m.max_ncmds ∧
      HidEvent.replay m.heldKey evs = some m1.heldKey ∧
      (m1.lastCommand = m.lastCommand → evs = []) ∧
      m1.lastCommand = (if (m.index.update pin now).getIndex > m.max_ncmds then 0
        else (m.index.update pin now).getIndex) := by
  unfold MediaCommands.run
  simp only []
  generalize hcmd : (if (m.index.update pin now).getIndex > m.max_ncmds then 0
    else (m.index.update pin now).getIndex) = command
  have hc : command ≤ m.max_ncmds := by
    rw [← hcmd]; split <;> omega
  by_cases heq : command = m.lastCommand
  · refine ⟨{ m with index := m.index.update pin now, lastCommand := command }, [], ?_,
      rfl, rfl, hc, ?_, fun _ => rfl, rfl⟩
    · simp only [heq, bne_self_eq_false, Bool.false_eq_true, if_false]
    · rw [HidEvent.replay_nil]
      simp only [MediaCommands.heldKey, heq]
  · have hne : (command != m.lastCommand) = true := by simpa using heq
    simp only [hne, if_true]
    by_cases hl0 : m.lastCommand = 0
    · have hc0 : command ≠ 0 := fun h => heq (by rw [h, hl0])
      have hc0b : (command != 0) = true := by simpa using hc0
      have hl0b : (m.lastCommand != 0) = false := by simpa using hl0
      refine ⟨{ m with index := m.index.update pin now, lastCommand := command },
        [HidEvent.press (m.commands.getD (command - 1) 0)], ?_, rfl, rfl, hc, ?_,
        fun h => absurd h heq, rfl⟩
      · simp only [hl0b, Bool.false_eq_true, if_false, hc0b, if_true,
          m.readCommand_pred command hc0 hc, Option.map_some', Option.some_bind,
          List.nil_append]
      · simp only [MediaCommands.heldKey, hl0b, hc0b, Bool.false_eq_true, if_false, if_true,
          HidEvent.replay]
    · have hl0b : (m.lastCommand != 0) = true := by simpa using hl0
      by_cases hc0 : command = 0
      · have hc0b : (command != 0) = false := by simpa using hc0
        refine ⟨{ m with index := m.index.update pin now, lastCommand := command },
          [HidEvent.release (m.commands.getD (m.lastCommand - 1) 0)], ?_, rfl, rfl, hc, ?_,
          fun h => absurd h heq, rfl⟩
        · simp only [hl0b, if_true, m.readCommand_pred m.lastCommand hl0 hle, hc0b,
            Bool.false_eq_true, if_false, Option.map_some', Option.some_bind,
            List.append_nil]
        · simp only [MediaCommands.heldKey, hl0b, hc0b, Bool.false_eq_true, if_false,
            if_true, HidEvent.replay]
      · have hc0b : (command != 0) = true := by simpa using hc0
        refine ⟨{ m with index := m.index.update pin now, lastCommand := command },
          [HidEvent.release (m.commands.getD (m.lastCommand - 1) 0),
            HidEvent.press (m.commands.getD (command - 1) 0)], ?_, rfl, rfl, hc, ?_,
          fun h => absurd h heq, rfl⟩
        · simp only [hl0b, if_true, m.readCommand_pred m.lastCommand hl0 hle, hc0b,
            m.readCommand_pred command hc0 hc, Option.map_some', Option.some_bind,
            List.singleton_append]
        · simp only [MediaCommands.heldKey, hl0b, hc0b, if_true, HidEvent.replay]

/-- A sequence of `run()` calls from a state with `lastCommand ≤ max_ncmds`:
the facts of `run_spec` for the whole sequence. -/
theorem MediaCommands.runs_spec (m : MediaCommands) (calls : List (InputHandler × Nat))
    (hle : m.lastCommand ≤ m.max_ncmds) :
    ∃ m1 evs, m.runs calls = some (m1, evs) ∧ m1.max_ncmds = m.max_ncmds ∧
      m1.commands = m.commands ∧ m1.lastCommand ≤ m.max_ncmds ∧
      HidEvent.replay m.heldKey evs = some m1.heldKey := by
  induction calls generalizing m with
  | nil => exact ⟨m, [], rfl, rfl, rfl, hle, HidEvent.replay_nil _⟩
  | cons c cs ih =>
    obtain ⟨m1, e1, h1, hmax1, hcmd1, hle1, hrep1, _, _⟩ := m.run_spec c.1 c.2 hle
    obtain ⟨m2, e2, h2, hmax2, hcmd2, hle2, hrep2⟩ := ih m1 (by rw [hmax1]; exact hle1)
    refine ⟨m2, e1 ++ e2, ?_, by rw [hmax2, hmax1], by rw [hcmd2, hcmd1],
      by rw [← hmax1]; exact hle2, ?_⟩
    · simp only [MediaCommands.runs, h1, h2, Option.some_bind]
    · rw [HidEvent.replay_append, hrep1, Option.some_bind, hrep2]

/-- What one `run()` does, in full, from a state with
`lastCommand ≤ max_ncmds`: `index.update()` is called, `command` is
`getIndex()` or 0 if that is above `max_ncmds`; if `command` differs from
`lastCommand` the key of `lastCommand` (if non-zero) is released and then the
key of `command` (if non-zero) is pressed, otherwise no call is made; and
`lastCommand` becomes `command`. -/
theorem MediaCommands.run_events (m : MediaCommands) (pin : InputHandler) (now : Nat)
    (hle : m.lastCommand ≤ m.max_ncmds) :
    m.run pin now =
      some ({ m with
          index := m.index.update pin now,
          lastCommand := (if (m.index.update pin now).getIndex > m.max_ncmds then 0
            else (m.index.update pin now).getIndex) },
        if (if (m.index.update pin now).getIndex > m.max_ncmds then 0
            else (m.index.update pin now).getIndex) = m.lastCommand then []
        else
          (if m.lastCommand ≠ 0 then
              [HidEvent.release (m.commands.getD (m.lastCommand - 1) 0)] else []) ++
            (if (if (m.index.update pin now).getIndex > m.max_ncmds then 0
                else (m.index.update pin now).getIndex) ≠ 0 then
              [HidEvent.press (m.commands.getD
                ((if (m.index.update pin now).getIndex > m.max_ncmds then 0
                  else (m.index.update pin now).getIndex) - 1) 0)] else [])) := by
  unfold MediaCommands.run
  simp only []
  generalize hcmd : (if (m.index.update pin now).getIndex > m.max_ncmds then 0
    else (m.index.update pin now).getIndex) = command
  have hc : command ≤ m.max_ncmds := by
    rw [← hcmd]; split <;> omega
  by_cases heq : command = m.lastCommand
  · simp only [heq, bne_self_eq_false, Bool.false_eq_true, if_false, if_true]
  · have hne : (command != m.lastCommand) = true := by simpa using heq
    simp only [hne, if_true, if_neg heq]
    by_cases hl0 : m.lastCommand = 0
    · have hc0 : command ≠ 0 := fun h => heq (by rw [h, hl0])
      have hc0b : (command != 0) = true := by simpa using hc0
      have hl0b : (m.lastCommand != 0) = false := by simpa using hl0
      simp only [hl0b, Bool.false_eq_true, if_false, hc0b, if_true,
        m.readCommand_pred command hc0 hc, Option.map_some', Option.some_bind,
        List.nil_append, ne_eq, hl0, not_true_eq_false, hc0, not_false_eq_true,
        bne_self_eq_false]
    · have hl0b : (m.lastCommand != 0) = true := by simpa using hl0
      by_cases hc0 : command = 0
      · have hc0b : (command != 0) = false := by simpa using hc0
        simp only [hl0b, if_true, m.readCommand_pred m.lastCommand hl0 hle, hc0b,
          Bool.false_eq_true, if_false, Option.map_some', Option.some_bind,
          List.append_nil, ne_eq, hl0, not_false_eq_true, hc0, not_true_eq_false,
          bne_self_eq_false]
      · have hc0b : (command != 0) = true := by simpa using hc0
        simp only [hl0b, if_true, m.readCommand_pred m.lastCommand hl0 hle, hc0b,
          m.readCommand_pred command hc0 hc, Option.map_some', Option.some_bind,
          List.singleton_append, ne_eq, hl0, not_false_eq_true, hc0]

/-- C17. Press/release pairing in the media dispatcher.  One `run()` calls
`index.update()`, takes `command = getIndex()` (0 if above `max_ncmds`) and
sets `lastCommand` to it; if `command` equals `lastCommand` it makes no
`Consumer` call, otherwise it releases `commands[lastCommand-1]` (if
`lastCommand` is non-zero) and then presses `commands[command-1]` (if
`command` is non-zero), and nothing else.  Hence over any sequence of `run()`
calls (the table unchanged) the `Consumer` calls replay without ever
pressing a key while another is held or releasing a key that is not held,
and the key held afterwards is `commands[lastCommand-1]` if `lastCommand` is
non-zero and none otherwise. -/
theorem press_release_pairing (m : MediaCommands) (calls : List (InputHandler × Nat))
    (pin : InputHandler) (now : Nat) (hle : m.lastCommand ≤ m.max_ncmds) :
    (∃ m1 evs, m.runs calls = some (m1, evs) ∧ m1.commands = m.commands ∧
        HidEvent.replay m.heldKey evs = some m1.heldKey) ∧
      (∃ m1 evs, m.run pin now = some (m1, evs) ∧
        m1.index = m.index.update pin now ∧
        m1.lastCommand = (if (m.index.update pin now).getIndex > m.max_ncmds then 0
          else (m.index.update pin now).getIndex) ∧
        m1.commands = m.commands ∧ m1.max_ncmds = m.max_ncmds ∧
        (m1.lastCommand = m.lastCommand → evs = []) ∧
        (m1.lastCommand ≠ m.lastCommand →
          evs =
            (if m.lastCommand ≠ 0 then
                [HidEvent.release (m.commands.getD (m.lastCommand - 1) 0)] else []) ++
              (if m1.lastCommand ≠ 0 then
                [HidEvent.press (m.commands.getD (m1.lastCommand - 1) 0)] else [])) ∧
        HidEvent.replay m.heldKey evs = some m1.heldKey) := by
  constructor
  · obtain ⟨m1, evs, h1, _, h3, _, h5⟩ := m.runs_spec calls hle
    exact ⟨m1, evs, h1, h3, h5⟩
  · obtain ⟨m2, evs2, h1, _, _, _, h5, _, _⟩ := m.run_spec pin now hle
    have hev := m.run_events pin now hle
    rw [hev] at h1
    have hpair := Option.some.inj h1
    have hm : _ = m2 := congrArg Prod.fst hpair
    have he : _ = evs2 := congrArg Prod.snd hpair
    rw [← hm, ← he] at h5
    exact ⟨_, _, hev, rfl, rfl, rfl, rfl, fun h => if_pos h, fun h => if_neg h, h5⟩

/-- Witness for C17: three commands (keys 205, 181, 182).  Over five calls a
burst of two taps completes (press 181), the next tick reports 0 (release
181), a new press arrives (nothing), is held past the threshold (press 182)
and stays held (nothing): key 182 is the one held at the end.  The single
call at 751 ms is the one on which the burst completes: `lastCommand` goes
from 0 to 2 and key 181 is pressed. -/
theorem press_release_pairing_witness :
    (∃ m1 evs,
        MediaCommands.runs ⟨3, ⟨3, 1000, ⟨300, false, 450, 2⟩, 0⟩, 0, [205, 181, 182]⟩
          [(⟨true, ⟨5, 460, true⟩, false⟩, 751), (⟨true, ⟨5, 460, true⟩, false⟩, 752),
            (⟨true, ⟨5, 800, false⟩, false⟩, 800), (⟨true, ⟨5, 800, false⟩, true⟩, 1800),
            (⟨true, ⟨5, 800, false⟩, true⟩, 1801)] = some (m1, evs) ∧
          m1.commands = [205, 181, 182] ∧
          HidEvent.replay
            (MediaCommands.heldKey
              ⟨3, ⟨3, 1000, ⟨300, false, 450, 2⟩, 0⟩, 0, [205, 181, 182]⟩) evs
            = some m1.heldKey) ∧
      (∃ m1 evs,
        MediaCommands.run ⟨3, ⟨3, 1000, ⟨300, false, 450, 2⟩, 0⟩, 0, [205, 181, 182]⟩
          ⟨true, ⟨5, 460, true⟩, false⟩ 751 = some (m1, evs) ∧
        m1.index = CommandIndex.update ⟨3, 1000, ⟨300, false, 450, 2⟩, 0⟩
          ⟨true, ⟨5, 460, true⟩, false⟩ 751 ∧
        m1.lastCommand = 2 ∧
        m1.commands = [205, 181, 182] ∧ m1.max_ncmds = 3 ∧
        (m1.lastCommand = 0 → evs = []) ∧
        (m1.lastCommand ≠ 0 →
          evs = [] ++
            (if m1.lastCommand ≠ 0 then
              [HidEvent.press (List.getD [205, 181, 182] (m1.lastCommand - 1) 0)]
              else [])) ∧
        HidEvent.replay none evs = some m1.heldKey) :=
  press_release_pairing ⟨3, ⟨3, 1000, ⟨300, false, 450, 2⟩, 0⟩, 0, [205, 181, 182]⟩
    [(⟨true, ⟨5, 460, true⟩, false⟩, 751), (⟨true, ⟨5, 460, true⟩, false⟩, 752),
      (⟨true, ⟨5, 800, false⟩, false⟩, 800), (⟨true, ⟨5, 800, false⟩, true⟩, 1800),
      (⟨true, ⟨5, 800, false⟩, true⟩, 1801)]
    ⟨true, ⟨5, 460, true⟩, false⟩ 751 (by decide)

/-- The events of the five calls of the witness, evaluated: press 181,
release 181, press 182, with `lastCommand` 3 at the end. -/
theorem MediaCommands.runs_example :
    (MediaCommands.runs ⟨3, ⟨3, 1000, ⟨300, false, 450, 2⟩, 0⟩, 0, [205, 181, 182]⟩
        [(⟨true, ⟨5, 460, true⟩, false⟩, 751), (⟨true, ⟨5, 460, true⟩, false⟩, 752),
          (⟨true, ⟨5, 800, false⟩, false⟩, 800), (⟨true, ⟨5, 800, false⟩, true⟩, 1800),
          (⟨true, ⟨5, 800, false⟩, true⟩, 1801)]).map (fun r => (r.1.lastCommand, r.2))
      = some (3, [HidEvent.press 181, HidEvent.release 181, HidEvent.press 182]) := by
  decide

/-- C18. Command-table indexing is in bounds: from a state with
`lastCommand ≤ max_ncmds` (as at construction, where it is 0) every sequence
of `run()` calls completes without an out-of-bounds access to `commands`,
whatever `getIndex()` returns and whatever `MaxCount` is, and leaves
`lastCommand ≤ max_ncmds`; a single `run()` sets `lastCommand` to the index,
or to 0 if the index is above `max_ncmds`; and a table read is defined only
for `0 ≤ k < max_ncmds`. -/
theorem command_table_in_bounds (m : MediaCommands) (calls : List (InputHandler × Nat))
    (pin : InputHandler) (now : Nat) (hle : m.lastCommand ≤ m.max_ncmds) :
    (∃ m1 evs, m.runs calls = some (m1, evs) ∧ m1.lastCommand ≤ m1.max_ncmds) ∧
      (∃ m1 evs, m.run pin now = some (m1, evs) ∧ m1.lastCommand ≤ m1.max_ncmds ∧
        m1.lastCommand = (if (m.index.update pin now).getIndex > m.max_ncmds then 0
          else (m.index.update pin now).getIndex)) ∧
      (∀ k : Int, m.readCommand k ≠ none → 0 ≤ k ∧ k < (m.max_ncmds : Int)) := by
  refine ⟨?_, ?_, fun k hk => ?_⟩
  · obtain ⟨m1, evs, h1, h2, _, h4, _⟩ := m.runs_spec calls hle
    exact ⟨m1, evs, h1, by rw [h2]; exact h4⟩
  · obtain ⟨m1, evs, h1, h2, _, h4, _, _, h7⟩ := m.run_spec pin now hle
    exact ⟨m1, evs, h1, by rw [h2]; exact h4, h7⟩
  · by_contra hcon
    exact hk (by simp only [MediaCommands.readCommand, if_neg hcon])

/-- Witness for C18: a dispatcher with 2 commands driven by a `CommandIndex`
built with `MaxCount` 5 that reports a burst of 4 taps. -/
theorem command_table_in_bounds_witness :
    (∃ m1 evs,
        MediaCommands.runs ⟨2, ⟨5, 1000, ⟨300, false, 450, 4⟩, 0⟩, 0, [205, 181]⟩
          [(⟨true, ⟨5, 460, true⟩, false⟩, 751), (⟨true, ⟨5, 460, true⟩, false⟩, 752)]
          = some (m1, evs) ∧ m1.lastCommand ≤ m1.max_ncmds) ∧
      (∃ m1 evs,
        MediaCommands.run ⟨2, ⟨5, 1000, ⟨300, false, 450, 4⟩, 0⟩, 0, [205, 181]⟩
          ⟨true, ⟨5, 460, true⟩, false⟩ 751 = some (m1, evs) ∧
          m1.lastCommand ≤ m1.max_ncmds ∧
          m1.lastCommand =
            (if (CommandIndex.update ⟨5, 1000, ⟨300, false, 450, 4⟩, 0⟩
                ⟨true, ⟨5, 460, true⟩, false⟩ 751).getIndex > 2 then 0
              else (CommandIndex.update ⟨5, 1000, ⟨300, false, 450, 4⟩, 0⟩
                ⟨true, ⟨5, 460, true⟩, false⟩ 751).getIndex)) ∧
      (∀ k : Int,
        MediaCommands.readCommand ⟨2, ⟨5, 1000, ⟨300, false, 450, 4⟩, 0⟩, 0, [205, 181]⟩ k
          ≠ none → 0 ≤ k ∧ k < ((2 : Nat) : Int)) :=
  command_table_in_bounds ⟨2, ⟨5, 1000, ⟨300, false, 450, 4⟩, 0⟩, 0, [205, 181]⟩
    [(⟨true, ⟨5, 460, true⟩, false⟩, 751), (⟨true, ⟨5, 460, true⟩, false⟩, 752)]
    ⟨true, ⟨5, 460, true⟩, false⟩ 751 (by decide)

/-! ## `lastUpdate` is written before it is read -/

theorem InitCounter.check_agrees (c c1 : InitCounter) (pin : InputHandler) (now : Nat)
    (h : c.check pin now = some c1) : c1.counter = c.counter.check pin now := by
  unfold InitCounter.check at h
  unfold PressCounter.check
  simp only [] at h ⊢
  split_ifs at h ⊢ <;> (cases h; rfl)

/-- While the flag is set whenever the count is non-zero, `check()` does not
read an unassigned timer. -/
theorem InitCounter.check_ne_none (c : InitCounter) (pin : InputHandler) (now : Nat)
    (hinv : 0 < c.counter.count → c.assigned = true) : c.check pin now ≠ none := by
  intro h
  have hrs : pin.rising = true → pin.state = true := pin.state_of_rising
  unfold InitCounter.check at h
  obtain ⟨⟨ps, f, lu, n⟩, a⟩ := c
  revert h hrs
  generalize pin.rising = r
  generalize pin.state = st
  intro hrs h
  cases r <;> cases st <;> cases a <;> simp at h hrs hinv <;>
    first
      | omega
      | split_ifs at h

/-- The flag stays set whenever the count is non-zero. -/
theorem InitCounter.check_assigned (c c1 : InitCounter) (pin : InputHandler) (now : Nat)
    (hinv : 0 < c.counter.count → c.assigned = true) (h : c.check pin now = some c1) :
    0 < c1.counter.count → c1.assigned = true := by
  have hrs : pin.rising = true → pin.state = true := pin.state_of_rising
  unfold InitCounter.check at h
  obtain ⟨⟨ps, f, lu, n⟩, a⟩ := c
  revert h hrs
  generalize pin.rising = r
  generalize pin.state = st
  intro hrs h hpos
  cases r <;> cases st <;> cases a <;> simp at h hrs hinv <;>
    first
      | (obtain ⟨h0, h1⟩ := h
         subst h1
         simp only [] at hpos
         omega)
      | (split_ifs at h <;> cases h <;> first | rfl | (simp only [] at hpos; omega) | simp_all)


/-- From a state where the flag is set whenever the count is non-zero, no
sequence of ticks and resets reads an unassigned timer. -/
theorem InitRig.run_defined (r : InitRig) (ops : List CounterOp)
    (hinv : 0 < r.counter.counter.count → r.counter.assigned = true) :
    ∃ r1, r.run ops = some r1 := by
  induction ops generalizing r with
  | nil => exact ⟨r, rfl⟩
  | cons op ops ih =>
    cases op with
    | tick t =>
      cases hc : r.counter.check (r.pin.update t.raw t.tPin) t.tCmd with
      | none => exact absurd hc (r.counter.check_ne_none _ _ hinv)
      | some c1 =>
        have hinv1 := r.counter.check_assigned c1 _ _ hinv hc
        obtain ⟨r1, h1⟩ := ih ⟨r.pin.update t.raw t.tPin, c1⟩ hinv1
        exact ⟨r1, by simp only [InitRig.run, InitRig.step, hc, Option.map_some',
          Option.some_bind, h1]⟩
    | reset now =>
      obtain ⟨r1, h1⟩ := ih ⟨r.pin, r.counter.reset now⟩ (fun _ => rfl)
      exact ⟨r1, by simp only [InitRig.run, InitRig.step, Option.some_bind, h1]⟩

/-- C19. `PressCounter.lastUpdate` is never read before it is written: in
every run from construction made of ticks in pipeline order and calls of
`reset()` at any points, the timeout comparison of `check()` is never
evaluated while `lastUpdate` is unassigned (the tracked run never fails);
the tracked `check()` and `reset()` compute what the plain ones do. -/
theorem lastUpdate_written_before_read (DebounceTime : Nat) (up : Bool) (speed junk : Nat)
    (ops : List CounterOp) :
    (∃ r, (InitRig.mk (InputHandler.new DebounceTime up) (InitCounter.new speed junk)).run
        ops = some r) ∧
      (∀ (c c1 : InitCounter) (pin : InputHandler) (now : Nat),
        c.check pin now = some c1 → c1.counter = c.counter.check pin now) ∧
      (∀ (c : InitCounter) (now : Nat), (c.reset now).counter = c.counter.reset now) ∧
      (InitCounter.new speed junk).counter = PressCounter.new speed junk :=
  ⟨InitRig.run_defined _ ops (fun h => absurd h (Nat.lt_irrefl 0)),
    fun c c1 pin now h => c.check_agrees c1 pin now h, fun _ _ => rfl, rfl⟩

/-- The tracked `check()` does report a read of the unassigned timer: a
counter whose count is non-zero while `lastUpdate` is unassigned (a state no
run from construction reaches) reads it on a released tick. -/
theorem InitCounter.check_reports_unassigned_read :
    InitCounter.check ⟨⟨300, false, 0, 1⟩, false⟩ ⟨true, ⟨5, 460, true⟩, false⟩ 700 = none := by
  decide

/-! ## The two-tap scenario -/

theorem Pipeline.tick_released_quiet (lc lu n i t : Nat) (ls : Bool)
    (h : n = 0 ∨ usub t lu ≤ 300) :
    Pipeline.tick ⟨⟨true, ⟨5, lc, true⟩, ls⟩, ⟨3, 1000, ⟨300, false, lu, n⟩, i⟩⟩
        (Tick.sync true t)
      = ⟨⟨true, ⟨5, lc, true⟩, false⟩, ⟨3, 1000, ⟨300, false, lu, n⟩, 0⟩⟩ := by
  rcases h with h | h
  · subst h
    simp [Pipeline.tick, Tick.sync, InputHandler.update, Debouncer.debounce,
      InputHandler.state, Debouncer.getState, CommandIndex.update, PressCounter.check,
      InputHandler.rising, InputHandler.changed, CommandIndex.setIndex, PressCounter.isDone]
  · have h1 : ¬ 300 < usub t lu := by omega
    simp [Pipeline.tick, Tick.sync, InputHandler.update, Debouncer.debounce,
      InputHandler.state, Debouncer.getState, CommandIndex.update, PressCounter.check,
      InputHandler.rising, InputHandler.changed, CommandIndex.setIndex, PressCounter.isDone,
      h1]

theorem Pipeline.tick_press_accepted (lc lu n i t : Nat) (ls : Bool)
    (hb : 5 < usub t lc) (hn : n + 1 < 256) :
    Pipeline.tick ⟨⟨true, ⟨5, lc, true⟩, ls⟩, ⟨3, 1000, ⟨300, false, lu, n⟩, i⟩⟩
        (Tick.sync false t)
      = ⟨⟨true, ⟨5, t, false⟩, false⟩, ⟨3, 1000, ⟨300, false, t, n + 1⟩, 0⟩⟩ := by
  have h1 : ¬ usub t lc ≤ 5 := by omega
  have h2 : (n + 1) % 256 = n + 1 := Nat.mod_eq_of_lt hn
  simp [Pipeline.tick, Tick.sync, InputHandler.update, Debouncer.debounce,
    Debouncer.bouncing, InputHandler.state, Debouncer.getState, CommandIndex.update,
    PressCounter.check, InputHandler.rising, InputHandler.changed, CommandIndex.setIndex,
    PressCounter.isDone, InputHandler.heldFor, Debouncer.heldFor, usub_self, UINT8_MOD,
    h1, h2]

theorem Pipeline.tick_held (lc lu n i t : Nat) (ls : Bool)
    (hn : 0 < n) (hh : usub t lc < 1000) :
    Pipeline.tick ⟨⟨true, ⟨5, lc, false⟩, ls⟩, ⟨3, 1000, ⟨300, false, lu, n⟩, i⟩⟩
        (Tick.sync false t)
      = ⟨⟨true, ⟨5, lc, false⟩, true⟩, ⟨3, 1000, ⟨300, false, t, n⟩, 0⟩⟩ := by
  have h1 : ¬ 1000 ≤ usub t lc := by omega
  have h2 : n ≠ 0 := by omega
  simp [Pipeline.tick, Tick.sync, InputHandler.update, Debouncer.debounce,
    Debouncer.bouncing, InputHandler.state, Debouncer.getState, CommandIndex.update,
    PressCounter.check, InputHandler.rising, InputHandler.changed, CommandIndex.setIndex,
    PressCounter.isDone, InputHandler.heldFor, Debouncer.heldFor, h1, h2, hn]

theorem Pipeline.tick_release_accepted (lc lu n i t : Nat) (ls : Bool)
    (hb : 5 < usub t lc) (h : usub t lu ≤ 300) :
    Pipeline.tick ⟨⟨true, ⟨5, lc, false⟩, ls⟩, ⟨3, 1000, ⟨300, false, lu, n⟩, i⟩⟩
        (Tick.sync true t)
      = ⟨⟨true, ⟨5, t, true⟩, true⟩, ⟨3, 1000, ⟨300, false, lu, n⟩, 0⟩⟩ := by
  have h1 : ¬ usub t lc ≤ 5 := by omega
  have h2 : ¬ 300 < usub t lu := by omega
  simp [Pipeline.tick, Tick.sync, InputHandler.update, Debouncer.debounce,
    Debouncer.bouncing, InputHandler.state, Debouncer.getState, CommandIndex.update,
    PressCounter.check, InputHandler.rising, InputHandler.changed, CommandIndex.setIndex,
    PressCounter.isDone, InputHandler.heldFor, Debouncer.heldFor, h1, h2]

theorem Pipeline.tick_burst_done (lc lu n i t : Nat) (ls : Bool)
    (hn : 0 < n) (hn3 : n ≤ 3) (h : 300 < usub t lu) :
    Pipeline.tick ⟨⟨true, ⟨5, lc, true⟩, ls⟩, ⟨3, 1000, ⟨300, false, lu, n⟩, i⟩⟩
        (Tick.sync true t)
      = ⟨⟨true, ⟨5, lc, true⟩, false⟩, ⟨3, 1000, ⟨300, true, usub t 300, 0⟩, n⟩⟩ := by
  have h2 : n ≠ 0 := by omega
  have h3 : ¬ 3 < n := by omega
  simp [Pipeline.tick, Tick.sync, InputHandler.update, Debouncer.debounce,
    InputHandler.state, Debouncer.getState, CommandIndex.update, PressCounter.check,
    InputHandler.rising, InputHandler.changed, CommandIndex.setIndex, PressCounter.isDone,
    PressCounter.getCount, PressCounter.reset, h, h2, h3, hn]

theorem Pipeline.tick_after_burst (lc lu i t : Nat) (ls : Bool) :
    Pipeline.tick ⟨⟨true, ⟨5, lc, true⟩, ls⟩, ⟨3, 1000, ⟨300, true, lu, 0⟩, i⟩⟩
        (Tick.sync true t)
      = ⟨⟨true, ⟨5, lc, true⟩, false⟩, ⟨3, 1000, ⟨300, true, usub t 300, 0⟩, 0⟩⟩ := by
  simp [Pipeline.tick, Tick.sync, InputHandler.update, Debouncer.debounce,
    InputHandler.state, Debouncer.getState, CommandIndex.update, PressCounter.check,
    InputHandler.rising, InputHandler.changed, CommandIndex.setIndex, PressCounter.isDone,
    PressCounter.getCount, PressCounter.reset]

theorem twoTapsRaw_released (p1 r1 p2 r2 t : Nat)
    (h : (t < p1 ∨ r1 ≤ t) ∧ (t < p2 ∨ r2 ≤ t)) : twoTapsRaw p1 r1 p2 r2 t = true := by
  simp only [twoTapsRaw, Bool.not_eq_true', Bool.or_eq_false_iff, Bool.and_eq_false_imp,
    decide_eq_true_eq, decide_eq_false_iff_not]
  omega

theorem twoTapsRaw_pressed (p1 r1 p2 r2 t : Nat)
    (h : (p1 ≤ t ∧ t < r1) ∨ (p2 ≤ t ∧ t < r2)) : twoTapsRaw p1 r1 p2 r2 t = false := by
  simp only [twoTapsRaw, Bool.not_eq_false', Bool.or_eq_true, Bool.and_eq_true,
    decide_eq_true_eq]
  exact h

theorem twoTapsState_waiting (junk p1 r1 p2 r2 t : Nat) (h : t < p1) :
    twoTapsState junk p1 r1 p2 r2 t
      = ⟨⟨true, ⟨5, usub 0 5, true⟩, false⟩, ⟨3, 1000, ⟨300, false, junk, 0⟩, 0⟩⟩ := by
  rw [twoTapsState, if_pos h]

theorem twoTapsState_press1 (junk p1 r1 p2 r2 t : Nat) (h1 : p1 ≤ t) (h2 : t < r1) :
    twoTapsState junk p1 r1 p2 r2 t
      = ⟨⟨true, ⟨5, p1, false⟩, decide (p1 < t)⟩, ⟨3, 1000, ⟨300, false, t, 1⟩, 0⟩⟩ := by
  rw [twoTapsState, if_neg (by omega), if_pos h2]

theorem twoTapsState_release1 (junk p1 r1 p2 r2 t : Nat) (ho : p1 ≤ r1) (h1 : r1 ≤ t)
    (h2 : t < p2) :
    twoTapsState junk p1 r1 p2 r2 t
      = ⟨⟨true, ⟨5, r1, true⟩, decide (t = r1)⟩,
          ⟨3, 1000, ⟨300, false, r1 - 1, 1⟩, 0⟩⟩ := by
  rw [twoTapsState, if_neg (by omega), if_neg (by omega), if_pos h2]

theorem twoTapsState_press2 (junk p1 r1 p2 r2 t : Nat) (ho : p1 ≤ r1 ∧ r1 ≤ p2) (h1 : p2 ≤ t)
    (h2 : t < r2) :
    twoTapsState junk p1 r1 p2 r2 t
      = ⟨⟨true, ⟨5, p2, false⟩, decide (p2 < t)⟩, ⟨3, 1000, ⟨300, false, t, 2⟩, 0⟩⟩ := by
  rw [twoTapsState, if_neg (by omega), if_neg (by omega), if_neg (by omega), if_pos h2]

theorem twoTapsState_release2 (junk p1 r1 p2 r2 t : Nat) (ho : p1 ≤ r1 ∧ r1 ≤ p2 ∧ p2 ≤ r2)
    (h1 : r2 ≤ t) (h2 : t < r2 + 300) :
    twoTapsState junk p1 r1 p2 r2 t
      = ⟨⟨true, ⟨5, r2, true⟩, decide (t = r2)⟩,
          ⟨3, 1000, ⟨300, false, r2 - 1, 2⟩, 0⟩⟩ := by
  rw [twoTapsState, if_neg (by omega), if_neg (by omega), if_neg (by omega),
    if_neg (by omega), if_pos h2]

theorem twoTapsState_reported (junk p1 r1 p2 r2 t : Nat) (ho : p1 ≤ r1 ∧ r1 ≤ p2 ∧ p2 ≤ r2)
    (h1 : r2 + 300 ≤ t) :
    twoTapsState junk p1 r1 p2 r2 t
      = ⟨⟨true, ⟨5, r2, true⟩, false⟩,
          ⟨3, 1000, ⟨300, true, t - 300, 0⟩, if t = r2 + 300 then 2 else 0⟩⟩ := by
  rw [twoTapsState, if_neg (by omega), if_neg (by omega), if_neg (by omega),
    if_neg (by omega), if_neg (by omega)]

/-- One millisecond of the two-tap run: the tick at `t + 1` takes the closed
form at `t` to the closed form at `t + 1`. -/
theorem twoTaps_step (junk p1 r1 p2 r2 t : Nat) (h0 : 1 ≤ p1) (hp1 : p1 + 5 < r1)
    (hg : r1 + 5 < p2) (hgap : p2 ≤ r1 + 300) (hp2 : p2 + 5 < r2)
    (hs1 : r1 ≤ p1 + 1000) (hs2 : r2 ≤ p2 + 1000) (hfresh : p1 + 5 < ULONG_MOD)
    (hclock : t + 1 < ULONG_MOD) :
    (twoTapsState junk p1 r1 p2 r2 t).tick (Tick.sync (twoTapsRaw p1 r1 p2 r2 (t + 1)) (t + 1))
      = twoTapsState junk p1 r1 p2 r2 (t + 1) := by
  have hclock1 : t + 1 < 4294967296 := hclock
  have hfresh1 : p1 + 5 < 4294967296 := hfresh
  have ho : p1 ≤ r1 ∧ r1 ≤ p2 ∧ p2 ≤ r2 := by omega
  by_cases c1 : t + 1 < p1
  · -- still waiting for the first press
    rw [twoTapsState_waiting junk p1 r1 p2 r2 t (by omega),
      twoTapsState_waiting junk p1 r1 p2 r2 (t + 1) c1,
      twoTapsRaw_released p1 r1 p2 r2 (t + 1) (by omega)]
    exact Pipeline.tick_released_quiet _ _ _ _ _ _ (Or.inl rfl)
  by_cases c2 : t + 1 = p1
  · -- the first press is accepted
    subst c2
    have hd : decide (t + 1 < t + 1) = false := decide_eq_false (Nat.lt_irrefl _)
    rw [twoTapsState_waiting junk (t + 1) r1 p2 r2 t (by omega),
      twoTapsState_press1 junk (t + 1) r1 p2 r2 (t + 1) (by omega) (by omega),
      twoTapsRaw_pressed (t + 1) r1 p2 r2 (t + 1) (by omega), hd]
    exact Pipeline.tick_press_accepted _ _ _ _ _ _
      (by simp only [usub, ULONG_MOD]; omega) (by omega)
  by_cases c3 : t + 1 < r1
  · -- the first press is held
    have hd : decide (p1 < t + 1) = true := decide_eq_true (by omega)
    rw [twoTapsState_press1 junk p1 r1 p2 r2 t (by omega) (by omega),
      twoTapsState_press1 junk p1 r1 p2 r2 (t + 1) (by omega) c3,
      twoTapsRaw_pressed p1 r1 p2 r2 (t + 1) (by omega), hd]
    exact Pipeline.tick_held _ _ _ _ _ _ (by omega)
      (by rw [usub_of_le _ _ (by omega) hclock]; omega)
  by_cases c4 : t + 1 = r1
  · -- the first release is accepted
    subst c4
    have hd : decide (t + 1 = t + 1) = true := decide_eq_true rfl
    rw [twoTapsState_press1 junk p1 (t + 1) p2 r2 t (by omega) (by omega),
      twoTapsState_release1 junk p1 (t + 1) p2 r2 (t + 1) (by omega) (by omega) (by omega),
      twoTapsRaw_released p1 (t + 1) p2 r2 (t + 1) (by omega), hd, Nat.add_sub_cancel]
    exact Pipeline.tick_release_accepted _ _ _ _ _ _
      (by rw [usub_of_le _ _ (by omega) hclock]; omega)
      (by rw [usub_of_le _ _ (by omega) hclock]; omega)
  by_cases c5 : t + 1 < p2
  · -- released between the presses
    have hd : decide (t + 1 = r1) = false := decide_eq_false c4
    rw [twoTapsState_release1 junk p1 r1 p2 r2 t (by omega) (by omega) (by omega),
      twoTapsState_release1 junk p1 r1 p2 r2 (t + 1) (by omega) (by omega) c5,
      twoTapsRaw_released p1 r1 p2 r2 (t + 1) (by omega), hd]
    exact Pipeline.tick_released_quiet _ _ _ _ _ _
      (Or.inr (by rw [usub_of_le _ _ (by omega) hclock]; omega))
  by_cases c6 : t + 1 = p2
  · -- the second press is accepted
    subst c6
    have hd : decide (t + 1 < t + 1) = false := decide_eq_false (Nat.lt_irrefl _)
    rw [twoTapsState_release1 junk p1 r1 (t + 1) r2 t (by omega) (by omega) (by omega),
      twoTapsState_press2 junk p1 r1 (t + 1) r2 (t + 1) (by omega) (by omega) (by omega),
      twoTapsRaw_pressed p1 r1 (t + 1) r2 (t + 1) (by omega), hd]
    exact Pipeline.tick_press_accepted _ _ _ _ _ _
      (by rw [usub_of_le _ _ (by omega) hclock]; omega) (by omega)
  by_cases c7 : t + 1 < r2
  · -- the second press is held
    have hd : decide (p2 < t + 1) = true := decide_eq_true (by omega)
    rw [twoTapsState_press2 junk p1 r1 p2 r2 t (by omega) (by omega) (by omega),
      twoTapsState_press2 junk p1 r1 p2 r2 (t + 1) (by omega) (by omega) c7,
      twoTapsRaw_pressed p1 r1 p2 r2 (t + 1) (by omega), hd]
    exact Pipeline.tick_held _ _ _ _ _ _ (by omega)
      (by rw [usub_of_le _ _ (by omega) hclock]; omega)
  by_cases c8 : t + 1 = r2
  · -- the second release is accepted
    subst c8
    have hd : decide (t + 1 = t + 1) = true := decide_eq_true rfl
    rw [twoTapsState_press2 junk p1 r1 p2 (t + 1) t (by omega) (by omega) (by omega),
      twoTapsState_release2 junk p1 r1 p2 (t + 1) (t + 1) (by omega) (by omega) (by omega),
      twoTapsRaw_released p1 r1 p2 (t + 1) (t + 1) (by omega), hd, Nat.add_sub_cancel]
    exact Pipeline.tick_release_accepted _ _ _ _ _ _
      (by rw [usub_of_le _ _ (by omega) hclock]; omega)
      (by rw [usub_of_le _ _ (by omega) hclock]; omega)
  by_cases c9 : t + 1 < r2 + 300
  · -- silence, the timeout still running
    have hd : decide (t + 1 = r2) = false := decide_eq_false c8
    rw [twoTapsState_release2 junk p1 r1 p2 r2 t (by omega) (by omega) (by omega),
      twoTapsState_release2 junk p1 r1 p2 r2 (t + 1) (by omega) (by omega) c9,
      twoTapsRaw_released p1 r1 p2 r2 (t + 1) (by omega), hd]
    exact Pipeline.tick_released_quiet _ _ _ _ _ _
      (Or.inr (by rw [usub_of_le _ _ (by omega) hclock]; omega))
  by_cases c10 : t + 1 = r2 + 300
  · -- the timeout elapses: the burst of two taps is reported
    rw [twoTapsState_release2 junk p1 r1 p2 r2 t (by omega) (by omega) (by omega),
      twoTapsState_reported junk p1 r1 p2 r2 (t + 1) (by omega) (by omega),
      twoTapsRaw_released p1 r1 p2 r2 (t + 1) (by omega), if_pos c10,
      Pipeline.tick_burst_done _ _ _ _ _ _ (by omega) (by omega)
        (by rw [usub_of_le _ _ (by omega) hclock]; omega),
      usub_of_le _ _ (by omega) hclock]
  · -- after the report
    rw [twoTapsState_reported junk p1 r1 p2 r2 t (by omega) (by omega),
      twoTapsState_reported junk p1 r1 p2 r2 (t + 1) (by omega) (by omega),
      twoTapsRaw_released p1 r1 p2 r2 (t + 1) (by omega), if_neg c10,
      Pipeline.tick_after_burst, usub_of_le _ _ (by omega) hclock]

/-- The two-tap run from the closed form at `t`: `n` further milliseconds lead
to the closed form at `t + n`. -/
theorem twoTaps_run_from (junk p1 r1 p2 r2 : Nat) (h0 : 1 ≤ p1) (hp1 : p1 + 5 < r1)
    (hg : r1 + 5 < p2) (hgap : p2 ≤ r1 + 300) (hp2 : p2 + 5 < r2)
    (hs1 : r1 ≤ p1 + 1000) (hs2 : r2 ≤ p2 + 1000) (hfresh : p1 + 5 < ULONG_MOD)
    (n t : Nat) (hclock : t + n < ULONG_MOD) :
    (twoTapsState junk p1 r1 p2 r2 t).run (msTicks (twoTapsRaw p1 r1 p2 r2) (t + 1) n)
      = twoTapsState junk p1 r1 p2 r2 (t + n) := by
  induction n generalizing t with
  | zero => rfl
  | succ n ih =>
    have hc1 : t + 1 < ULONG_MOD := by omega
    rw [msTicks, Pipeline.run_cons,
      twoTaps_step junk p1 r1 p2 r2 t h0 hp1 hg hgap hp2 hs1 hs2 hfresh hc1,
      ih (t + 1) (by omega)]
    congr 1
    omega

/-- C11. Spec scenario, two taps: a pipeline with a 5 ms debounce window, a
300 ms timeout, a 1000 ms hold threshold and 3 commands is ticked once per millisecond
from a fresh state, starting at `t0` with the button up.  The button is down
from `p1` up to `r1` and from `p2` up to `r2`, each press and the release in
between lasting more than 5 ms, each press at most 1000 ms, the gap at most
300 ms, then silence.  After the tick at clock reading `t0 + n`,
`getIndex()` is 2 if that tick is the one 300 ms into the silence and 0
otherwise. -/
theorem scenario_two_taps (junk t0 p1 r1 p2 r2 n : Nat) (hstart : t0 < p1)
    (hp1 : p1 + 5 < r1) (hg : r1 + 5 < p2) (hgap : p2 ≤ r1 + 300) (hp2 : p2 + 5 < r2)
    (hs1 : r1 ≤ p1 + 1000) (hs2 : r2 ≤ p2 + 1000) (hfresh : p1 + 5 < ULONG_MOD)
    (hclock : t0 + n < ULONG_MOD) :
    ((Pipeline.new 5 true 3 300 1000 junk).run
        (msTicks (twoTapsRaw p1 r1 p2 r2) t0 (n + 1))).index.getIndex
      = if t0 + n = r2 + 300 then 2 else 0 := by
  have hfirst : (Pipeline.new 5 true 3 300 1000 junk).tick
      (Tick.sync (twoTapsRaw p1 r1 p2 r2 t0) t0)
      = twoTapsState junk p1 r1 p2 r2 t0 := by
    rw [twoTapsState_waiting junk p1 r1 p2 r2 t0 hstart,
      twoTapsRaw_released p1 r1 p2 r2 t0 (by omega)]
    exact Pipeline.tick_released_quiet _ _ _ _ _ _ (Or.inl rfl)
  rw [msTicks, Pipeline.run_cons, hfirst,
    twoTaps_run_from junk p1 r1 p2 r2 (by omega) hp1 hg hgap hp2 hs1 hs2 hfresh n t0 hclock]
  unfold twoTapsState
  split_ifs <;> first | rfl | (exfalso; omega)

/-- Witness for C11: ticks from 0 ms, presses from 10 ms to 60 ms and from
160 ms to 210 ms; the tick at 510 ms, 300 ms into the silence, reports 2. -/
theorem scenario_two_taps_witness :
    ((Pipeline.new 5 true 3 300 1000 77).run
        (msTicks (twoTapsRaw 10 60 160 210) 0 (510 + 1))).index.getIndex
      = if 0 + 510 = 210 + 300 then 2 else 0 :=
  scenario_two_taps 77 0 10 60 160 210 510 (by decide) (by decide) (by decide) (by decide)
    (by decide) (by decide) (by decide) (by decide) (by decide)

end MediaFootswitch
